import Mathlib

/-!
Verification of the mesh-topology / picking subsystem of the threejs-react-app
repository, shallowly embedded in Lean 4.

Conventions of the embedding:
 * JavaScript `number` coordinates are modelled as exact rationals; real-valued
   facts (angles, square roots) live in `ℝ` via coercion.
 * A JS `Map` is modelled as an insertion-ordered association list.
 * Code that can throw a `TypeError` is modelled with `Except Unit`.
 * Distances are compared through their squares (`d1 < d2 ↔ d1² < d2²` for
   non-negative reals), which keeps every definition executable over `ℚ`.
-/

namespace ThreeApp

/-- Exact 3-component vector, mirroring `THREE.Vector3` coordinates. -/
structure Vec3 where
  x : ℚ
  y : ℚ
  z : ℚ
deriving DecidableEq, Repr

namespace Vec3

def add (a b : Vec3) : Vec3 := ⟨a.x + b.x, a.y + b.y, a.z + b.z⟩

def sub (a b : Vec3) : Vec3 := ⟨a.x - b.x, a.y - b.y, a.z - b.z⟩

def smul (q : ℚ) (a : Vec3) : Vec3 := ⟨q * a.x, q * a.y, q * a.z⟩

/-- Dot product, as in `THREE.Vector3.dot`. -/
def dot (a b : Vec3) : ℚ := a.x * b.x + a.y * b.y + a.z * b.z

/-- Cross product, as in `THREE.Vector3.cross`. -/
def cross (a b : Vec3) : Vec3 :=
  ⟨a.y * b.z - a.z * b.y, a.z * b.x - a.x * b.z, a.x * b.y - a.y * b.x⟩

/-- Squared Euclidean length (`THREE.Vector3.lengthSq`). -/
def normSq (a : Vec3) : ℚ := dot a a

def zero : Vec3 := ⟨0, 0, 0⟩

theorem normSq_nonneg (a : Vec3) : 0 ≤ a.normSq := by
  have hx := mul_self_nonneg a.x
  have hy := mul_self_nonneg a.y
  have hz := mul_self_nonneg a.z
  simp only [normSq, dot]
  linarith

/-- Lagrange identity specialised to 3 dimensions; it gives Cauchy–Schwarz. -/
theorem lagrange (a b : Vec3) :
    normSq (cross a b) = normSq a * normSq b - dot a b * dot a b := by
  simp only [normSq, dot, cross]
  ring

theorem dot_sq_le (a b : Vec3) : dot a b * dot a b ≤ normSq a * normSq b := by
  have h := lagrange a b
  have h2 := normSq_nonneg (cross a b)
  linarith

end Vec3

/-- A triangle is three vertex indices into the position buffer. -/
abbrev Tri := Nat × Nat × Nat

/-- Vertex lookup; out-of-range reads are modelled as the origin (the source
reads `undefined`/NaN there, a corner no claim depends on). -/
def getVert (verts : List Vec3) (i : Nat) : Vec3 := verts.getD i Vec3.zero

/-- Triangle lookup by triangle index. -/
def triAt (tris : List Tri) (i : Nat) : Tri := tris.getD i (0, 0, 0)

/-- Face normal of triangle `i`, computed exactly as `triangleToFaceMapFromGeometry`
does: `cb = v2 - v1`, `ab = v0 - v1`, normal `= cb × ab`.  The source then
normalizes; normalization rescales by a positive factor and therefore does not
change the angle test, so the raw cross product is kept (`angleExceeds` divides
by the norms, and treats the zero vector the way `THREE.Vector3.angleTo` does). -/
def faceNormal (verts : List Vec3) (tris : List Tri) (i : Nat) : Vec3 :=
  let t := triAt tris i
  let v0 := getVert verts t.1
  let v1 := getVert verts t.2.1
  let v2 := getVert verts t.2.2
  Vec3.cross (Vec3.sub v2 v1) (Vec3.sub v0 v1)

/-- The angle between `n1` and `n2` exceeds `θ`, phrased without `arccos`:
for nonzero vectors, `angle > θ ↔ n1·n2 < cos θ · ‖n1‖ · ‖n2‖` (cos is
strictly decreasing on `[0, π]`).  `THREE.Vector3.angleTo` returns `π/2`
when either vector is zero, which the first branch reproduces. -/
def angleExceeds (n1 n2 : Vec3) (θ : ℝ) : Prop :=
  if Vec3.normSq n1 = 0 ∨ Vec3.normSq n2 = 0 then Real.pi / 2 > θ
  else (Vec3.dot n1 n2 : ℝ) <
    Real.cos θ * Real.sqrt (Vec3.normSq n1 : ℚ) * Real.sqrt (Vec3.normSq n2 : ℚ)

/-- Justification that `angleExceeds` is the source's `angleTo(n1, n2) > θ` for
nonzero vectors: the angle is `arccos (n1·n2 / (‖n1‖ ‖n2‖))`. -/
theorem angleExceeds_iff_arccos (n1 n2 : Vec3) (θ : ℝ)
    (h1 : Vec3.normSq n1 ≠ 0) (h2 : Vec3.normSq n2 ≠ 0)
    (hθ0 : 0 ≤ θ) (hθπ : θ ≤ Real.pi) :
    angleExceeds n1 n2 θ ↔
      θ < Real.arccos ((Vec3.dot n1 n2 : ℝ) /
        (Real.sqrt (Vec3.normSq n1 : ℚ) * Real.sqrt (Vec3.normSq n2 : ℚ))) := by
  have hs1 : (0 : ℝ) < Real.sqrt (Vec3.normSq n1 : ℚ) := by
    apply Real.sqrt_pos.mpr
    have := Vec3.normSq_nonneg n1
    have hne : (Vec3.normSq n1 : ℝ) ≠ 0 := by exact_mod_cast h1
    have hge : (0 : ℝ) ≤ (Vec3.normSq n1 : ℚ) := by exact_mod_cast this
    exact lt_of_le_of_ne hge (Ne.symm hne)
  have hs2 : (0 : ℝ) < Real.sqrt (Vec3.normSq n2 : ℚ) := by
    apply Real.sqrt_pos.mpr
    have := Vec3.normSq_nonneg n2
    have hne : (Vec3.normSq n2 : ℝ) ≠ 0 := by exact_mod_cast h2
    have hge : (0 : ℝ) ≤ (Vec3.normSq n2 : ℚ) := by exact_mod_cast this
    exact lt_of_le_of_ne hge (Ne.symm hne)
  set s1 : ℝ := Real.sqrt (Vec3.normSq n1 : ℚ) with hs1def
  set s2 : ℝ := Real.sqrt (Vec3.normSq n2 : ℚ) with hs2def
  set q : ℝ := (Vec3.dot n1 n2 : ℝ) / (s1 * s2) with hqdef
  have hprod : (0 : ℝ) < s1 * s2 := mul_pos hs1 hs2
  -- Cauchy–Schwarz gives q ∈ [-1, 1]
  have hds : (Vec3.dot n1 n2 : ℝ) * (Vec3.dot n1 n2 : ℝ) ≤
      (Vec3.normSq n1 : ℝ) * (Vec3.normSq n2 : ℝ) := by
    have := Vec3.dot_sq_le n1 n2
    exact_mod_cast this
  have hssq : s1 * s1 = (Vec3.normSq n1 : ℝ) := by
    rw [hs1def, Real.mul_self_sqrt]
    have := Vec3.normSq_nonneg n1
    exact_mod_cast this
  have hssq2 : s2 * s2 = (Vec3.normSq n2 : ℝ) := by
    rw [hs2def]
    rw [Real.mul_self_sqrt]
    have := Vec3.normSq_nonneg n2
    exact_mod_cast this
  have habs : |(Vec3.dot n1 n2 : ℝ)| ≤ s1 * s2 := by
    have hnn : (0 : ℝ) ≤ s1 * s2 := le_of_lt hprod
    rw [abs_le]
    constructor
    · nlinarith [hds, hssq, hssq2]
    · nlinarith [hds, hssq, hssq2]
  have hq1 : -1 ≤ q := by
    rw [hqdef, le_div_iff₀ hprod]
    have := (abs_le.mp habs).1
    linarith
  have hq2 : q ≤ 1 := by
    rw [hqdef, div_le_iff₀ hprod]
    have := (abs_le.mp habs).2
    linarith
  have hiff : (Vec3.dot n1 n2 : ℝ) < Real.cos θ * s1 * s2 ↔ q < Real.cos θ := by
    rw [hqdef, div_lt_iff₀ hprod]
    constructor
    · intro h; linarith [h]
    · intro h; linarith [h]
  have harc : q < Real.cos θ ↔ θ < Real.arccos q := by
    constructor
    · intro h
      by_contra hcon
      push_neg at hcon
      have hcosle : Real.cos θ ≤ Real.cos (Real.arccos q) :=
        Real.strictAntiOn_cos.antitoneOn
          (Set.mem_Icc.mpr ⟨Real.arccos_nonneg q, Real.arccos_le_pi q⟩)
          (Set.mem_Icc.mpr ⟨hθ0, hθπ⟩) hcon
      rw [Real.cos_arccos hq1 hq2] at hcosle
      linarith
    · intro h
      have hlt : Real.cos (Real.arccos q) < Real.cos θ := by
        apply Real.strictAntiOn_cos (Set.mem_Icc.mpr ⟨hθ0, hθπ⟩)
          (Set.mem_Icc.mpr ⟨Real.arccos_nonneg q, Real.arccos_le_pi q⟩) h
      rw [Real.cos_arccos hq1 hq2] at hlt
      exact hlt
  unfold angleExceeds
  rw [if_neg]
  · exact hiff.trans harc
  · push_neg
    exact ⟨h1, h2⟩

/-!
Embedding of `buildEdgesFromGeometry` (src/core/primitives.js).  The JS `Map`
keyed by the canonical string `min_max` is an insertion-ordered association
list keyed by the canonical pair; number keys make the string key injective.
-/

/-- `getEdgeKey(a, b)` from the source: canonical undirected edge key. -/
def getEdgeKey (a b : Nat) : Nat × Nat := if a < b then (a, b) else (b, a)

/-- The three directed edges `[a,b], [b,c], [c,a]` of a triangle, canonicalized. -/
def triEdgeKeys (t : Tri) : List (Nat × Nat) :=
  [getEdgeKey t.1 t.2.1, getEdgeKey t.2.1 t.2.2, getEdgeKey t.2.2 t.1]

/-- Per-edge accumulator: `{ count, triangles }` in the source. -/
structure EdgeData where
  count : Nat
  triangles : List Nat
deriving DecidableEq, Repr

/-- One `edgeMap` update for key `k` by triangle `t`: create the entry with
`count = 0, triangles = []` if absent, then `count++` and push `t`. -/
def insertEdge : List ((Nat × Nat) × EdgeData) → (Nat × Nat) → Nat →
    List ((Nat × Nat) × EdgeData)
  | [], k, t => [(k, ⟨1, [t]⟩)]
  | (k0, d) :: rest, k, t =>
    if k0 = k then (k0, ⟨d.count + 1, d.triangles ++ [t]⟩) :: rest
    else (k0, d) :: insertEdge rest k t

/-- Processing one triangle inserts its three canonical keys. -/
def addTriangle (m : List ((Nat × Nat) × EdgeData)) (i : Nat) (t : Tri) :
    List ((Nat × Nat) × EdgeData) :=
  (triEdgeKeys t).foldl (fun m k => insertEdge m k i) m

/-- The triangle loop of `buildEdgesFromGeometry`, triangle index ascending. -/
def buildEdgeMapAux : List ((Nat × Nat) × EdgeData) → Nat → List Tri →
    List ((Nat × Nat) × EdgeData)
  | m, _, [] => m
  | m, i, t :: rest => buildEdgeMapAux (addTriangle m i t) (i + 1) rest

def buildEdgeMap (tris : List Tri) : List ((Nat × Nat) × EdgeData) :=
  buildEdgeMapAux [] 0 tris

/-- The output loop body of `buildEdgesFromGeometry`: a `count == 1` entry is a
boundary edge and is pushed; a `count == 2` entry is pushed iff the angle test
on its two adjacent triangles succeeds (`test` stands for
`faceMap[t1].normal.angleTo(faceMap[t2].normal) > thresholdAngle`); any other
count is dropped.  The key already is the canonical `(min, max)` pair the
source recovers with `key.split('_')`. -/
def selectEdge (test : Nat → Nat → Bool) (e : (Nat × Nat) × EdgeData) :
    Option (Nat × Nat) :=
  if e.2.count = 1 then some e.1
  else if e.2.count = 2 then
    match e.2.triangles with
    | t1 :: t2 :: _ => if test t1 t2 then some e.1 else none
    | _ => none
  else none

/-- `buildEdgesFromGeometry`, abstracted over the Boolean angle test on the two
adjacent triangle indices. -/
def buildEdgesWith (tris : List Tri) (test : Nat → Nat → Bool) :
    List (Nat × Nat) :=
  (buildEdgeMap tris).filterMap (selectEdge test)

/-- Triangles of an indexed geometry: consecutive index triples. -/
def chunkTris : List Nat → List Tri
  | a :: b :: c :: rest => (a, b, c) :: chunkTris rest
  | _ => []

/-- Triangles of a non-indexed geometry: implicit triples `3i, 3i+1, 3i+2`. -/
def implicitTris (vertCount : Nat) : List Tri :=
  (List.range (vertCount / 3)).map (fun i => (3 * i, 3 * i + 1, 3 * i + 2))

/-- Triangle list of a geometry, as both analyzer functions traverse it. -/
def trisOfGeometry (verts : List Vec3) (idx : Option (List Nat)) : List Tri :=
  match idx with
  | some ixs => chunkTris ixs
  | none => implicitTris verts.length

/-- `buildEdgesFromGeometry` on a geometry with a position buffer, abstracted
over the Boolean angle test. -/
def buildEdgesFromGeometry (verts : List Vec3) (idx : Option (List Nat))
    (test : Nat → Nat → Bool) : List (Nat × Nat) :=
  buildEdgesWith (trisOfGeometry verts idx) test

/-!
Reference counting of edge occurrences, used to state the claims: for a key
`e`, `edgeTriangles tris e` is the list of triangle indices that contribute
`e`, with multiplicity and in scan order, exactly what the map accumulates.
-/

/-- Number of occurrences of key `e` in a key list. -/
def countKey (e : Nat × Nat) : List (Nat × Nat) → Nat
  | [] => 0
  | k :: ks => (if k = e then 1 else 0) + countKey e ks

def edgeTrianglesAux (e : Nat × Nat) : List Tri → Nat → List Nat
  | [], _ => []
  | t :: rest, i =>
    List.replicate (countKey e (triEdgeKeys t)) i ++ edgeTrianglesAux e rest (i + 1)

/-- Adjacent-triangle multiset (in scan order) of the canonical edge `e`. -/
def edgeTriangles (tris : List Tri) (e : Nat × Nat) : List Nat :=
  edgeTrianglesAux e tris 0

/-- The `count` field the edge map ends up with for key `e`. -/
def edgeCount (tris : List Tri) (e : Nat × Nat) : Nat :=
  (edgeTriangles tris e).length

/-- Adjacent triangle number `j` (0 or 1) of edge `e`. -/
def adjTriangle (tris : List Tri) (e : Nat × Nat) (j : Nat) : Nat :=
  (edgeTriangles tris e).getD j 0

/-- Association-list lookup (`Map.get`). -/
def lookupEdge : List ((Nat × Nat) × EdgeData) → (Nat × Nat) → Option EdgeData
  | [], _ => none
  | (k, d) :: rest, e => if k = e then some d else lookupEdge rest e

/-- Merging a batch of triangle occurrences into an optional map entry. -/
def mergeData : Option EdgeData → List Nat → Option EdgeData
  | some d, l => some ⟨d.count + l.length, d.triangles ++ l⟩
  | none, [] => none
  | none, l => some ⟨l.length, l⟩

theorem mergeData_nil (o : Option EdgeData) : mergeData o [] = o := by
  cases o with
  | none => rfl
  | some d => simp [mergeData]

theorem mergeData_append (o : Option EdgeData) (l1 l2 : List Nat) :
    mergeData o (l1 ++ l2) = mergeData (mergeData o l1) l2 := by
  cases o with
  | some d => simp [mergeData, List.length_append, List.append_assoc]; omega
  | none =>
    cases l1 with
    | nil => simp [mergeData]
    | cons a l1 =>
      cases l2 with
      | nil => simp [mergeData]
      | cons b l2 => simp [mergeData, List.length_append]; omega

theorem mergeData_cons (o : Option EdgeData) (a : Nat) (l : List Nat) :
    mergeData o (a :: l) = mergeData (mergeData o [a]) l := by
  have h := mergeData_append o [a] l
  simpa using h

theorem lookupEdge_insertEdge (m : List ((Nat × Nat) × EdgeData))
    (k : Nat × Nat) (t : Nat) (e : Nat × Nat) :
    lookupEdge (insertEdge m k t) e =
      if k = e then mergeData (lookupEdge m e) [t] else lookupEdge m e := by
  induction m with
  | nil =>
    by_cases hke : k = e
    · subst hke; simp [insertEdge, lookupEdge, mergeData]
    · simp [insertEdge, lookupEdge, hke]
  | cons hd rest ih =>
    obtain ⟨k0, d⟩ := hd
    by_cases h0 : k0 = k
    · subst h0
      by_cases hke : k0 = e
      · subst hke; simp [insertEdge, lookupEdge, mergeData]
      · simp [insertEdge, lookupEdge, hke]
    · by_cases h0e : k0 = e
      · subst h0e
        have hke : k ≠ k0 := fun h => h0 h.symm
        simp [insertEdge, lookupEdge, h0, hke]
      · simp [insertEdge, lookupEdge, h0, h0e, ih]

theorem lookupEdge_foldl_insert (ks : List (Nat × Nat))
    (m : List ((Nat × Nat) × EdgeData)) (i : Nat) (e : Nat × Nat) :
    lookupEdge (ks.foldl (fun m k => insertEdge m k i) m) e =
      mergeData (lookupEdge m e) (List.replicate (countKey e ks) i) := by
  induction ks generalizing m with
  | nil => simp [countKey, List.replicate, mergeData_nil]
  | cons k ks ih =>
    rw [List.foldl_cons, ih, lookupEdge_insertEdge]
    by_cases hke : k = e
    · subst hke
      simp only [countKey, eq_self_iff_true, if_true]
      rw [show 1 + countKey k ks = countKey k ks + 1 from Nat.add_comm _ _,
        List.replicate_succ,
        mergeData_cons (lookupEdge m k) i (List.replicate (countKey k ks) i)]
    · simp only [countKey, if_neg hke]
      simp [hke]

theorem lookupEdge_buildEdgeMapAux (tris : List Tri)
    (m : List ((Nat × Nat) × EdgeData)) (i : Nat) (e : Nat × Nat) :
    lookupEdge (buildEdgeMapAux m i tris) e =
      mergeData (lookupEdge m e) (edgeTrianglesAux e tris i) := by
  induction tris generalizing m i with
  | nil => simp [buildEdgeMapAux, edgeTrianglesAux, mergeData_nil]
  | cons t rest ih =>
    rw [buildEdgeMapAux, ih, edgeTrianglesAux, mergeData_append]
    congr 1
    exact lookupEdge_foldl_insert _ _ _ _

/-- Lookup in the finished edge map: count and adjacent triangles of `e`. -/
theorem lookupEdge_buildEdgeMap (tris : List Tri) (e : Nat × Nat) :
    lookupEdge (buildEdgeMap tris) e =
      mergeData none (edgeTriangles tris e) := by
  rw [buildEdgeMap, lookupEdge_buildEdgeMapAux]
  rfl

def edgeKeys (m : List ((Nat × Nat) × EdgeData)) : List (Nat × Nat) :=
  m.map Prod.fst

theorem lookupEdge_eq_none_iff (m : List ((Nat × Nat) × EdgeData))
    (k : Nat × Nat) : lookupEdge m k = none ↔ k ∉ edgeKeys m := by
  induction m with
  | nil => simp [lookupEdge, edgeKeys]
  | cons hd rest ih =>
    obtain ⟨k0, d⟩ := hd
    by_cases h : k0 = k
    · subst h; simp [lookupEdge, edgeKeys]
    · simp [lookupEdge, edgeKeys, h, ih, Ne.symm h]

theorem edgeKeys_insertEdge (m : List ((Nat × Nat) × EdgeData))
    (k : Nat × Nat) (t : Nat) :
    edgeKeys (insertEdge m k t) =
      if k ∈ edgeKeys m then edgeKeys m else edgeKeys m ++ [k] := by
  induction m with
  | nil => simp [insertEdge, edgeKeys]
  | cons hd rest ih =>
    obtain ⟨k0, d⟩ := hd
    by_cases h : k0 = k
    · subst h; simp [insertEdge, edgeKeys]
    · have hne : k ≠ k0 := Ne.symm h
      simp only [insertEdge, if_neg h]
      show k0 :: edgeKeys (insertEdge rest k t) = _
      rw [ih]
      by_cases hmem : k ∈ edgeKeys rest
      · rw [if_pos hmem, if_pos (show k ∈ edgeKeys ((k0, d) :: rest) by
          simp [edgeKeys] at hmem ⊢; exact Or.inr hmem)]
        rfl
      · rw [if_neg hmem, if_neg (show k ∉ edgeKeys ((k0, d) :: rest) by
          simp [edgeKeys] at hmem ⊢; exact ⟨hne, hmem⟩)]
        rfl

theorem nodup_edgeKeys_insertEdge (m : List ((Nat × Nat) × EdgeData))
    (k : Nat × Nat) (t : Nat) (h : (edgeKeys m).Nodup) :
    (edgeKeys (insertEdge m k t)).Nodup := by
  rw [edgeKeys_insertEdge]
  by_cases hmem : k ∈ edgeKeys m
  · simpa [hmem] using h
  · simp only [hmem, if_false]
    rw [List.nodup_append]
    exact ⟨h, List.nodup_singleton k, by simpa using hmem⟩

theorem nodup_edgeKeys_addTriangle (m : List ((Nat × Nat) × EdgeData))
    (i : Nat) (t : Tri) (h : (edgeKeys m).Nodup) :
    (edgeKeys (addTriangle m i t)).Nodup := by
  unfold addTriangle
  exact nodup_edgeKeys_insertEdge _ _ _
    (nodup_edgeKeys_insertEdge _ _ _ (nodup_edgeKeys_insertEdge _ _ _ h))

theorem nodup_edgeKeys_buildEdgeMapAux (tris : List Tri)
    (m : List ((Nat × Nat) × EdgeData)) (i : Nat)
    (h : (edgeKeys m).Nodup) :
    (edgeKeys (buildEdgeMapAux m i tris)).Nodup := by
  induction tris generalizing m i with
  | nil => simpa [buildEdgeMapAux] using h
  | cons t rest ih =>
    rw [buildEdgeMapAux]
    exact ih _ _ (nodup_edgeKeys_addTriangle _ _ _ h)

theorem nodup_edgeKeys_buildEdgeMap (tris : List Tri) :
    (edgeKeys (buildEdgeMap tris)).Nodup := by
  apply nodup_edgeKeys_buildEdgeMapAux
  simp [edgeKeys]

theorem mem_of_lookupEdge (m : List ((Nat × Nat) × EdgeData))
    (k : Nat × Nat) (d : EdgeData) (h : lookupEdge m k = some d) :
    (k, d) ∈ m := by
  induction m with
  | nil => simp [lookupEdge] at h
  | cons hd rest ih =>
    obtain ⟨k0, d0⟩ := hd
    by_cases hk : k0 = k
    · subst hk
      simp [lookupEdge] at h
      simp [h]
    · simp [lookupEdge, hk] at h
      simp [ih h]

theorem lookupEdge_of_mem (m : List ((Nat × Nat) × EdgeData))
    (k : Nat × Nat) (d : EdgeData) (hnd : (edgeKeys m).Nodup)
    (h : (k, d) ∈ m) : lookupEdge m k = some d := by
  induction m with
  | nil => simp at h
  | cons hd rest ih =>
    obtain ⟨k0, d0⟩ := hd
    have hnd2 := List.nodup_cons.mp (show (k0 :: edgeKeys rest).Nodup from hnd)
    rcases List.mem_cons.mp h with h1 | h2
    · injection h1 with e1 e2
      subst e1; subst e2
      simp [lookupEdge]
    · have hk : k0 ≠ k := by
        intro hk
        subst hk
        have hmem : k0 ∈ edgeKeys rest := by
          simpa [edgeKeys] using List.mem_map_of_mem Prod.fst h2
        exact hnd2.1 hmem
      rw [show lookupEdge ((k0, d0) :: rest) k = if k0 = k then some d0
        else lookupEdge rest k from rfl, if_neg hk]
      exact ih hnd2.2 h2

/-- Unfolding lemma for `selectEdge` on a literal entry. -/
theorem selectEdge_mk (test : Nat → Nat → Bool) (k : Nat × Nat)
    (c : Nat) (ts : List Nat) :
    selectEdge test (k, ⟨c, ts⟩) =
      if c = 1 then some k
      else if c = 2 then
        match ts with
        | t1 :: t2 :: _ => if test t1 t2 then some k else none
        | _ => none
      else none := rfl

theorem selectEdge_eq_some (test : Nat → Nat → Bool)
    (kd : (Nat × Nat) × EdgeData) (e : Nat × Nat)
    (h : selectEdge test kd = some e) : kd.1 = e := by
  obtain ⟨k, c, ts⟩ := kd
  rw [selectEdge_mk] at h
  by_cases h1 : c = 1
  · rw [if_pos h1] at h
    simpa using h
  · rw [if_neg h1] at h
    by_cases h2 : c = 2
    · rw [if_pos h2] at h
      rcases ts with _ | ⟨t1, _ | ⟨t2, tl⟩⟩
      · simp at h
      · simp at h
      · by_cases ht : test t1 t2 = true
        · simp [ht] at h
          simpa using h
        · simp [ht] at h
    · rw [if_neg h2] at h
      simp at h

/-- Membership characterization of the edge list: the produced list contains
`e` iff `e` occurs in exactly one triangle (boundary), or in exactly two
triangles and the angle test succeeds on those two triangle indices. -/
theorem mem_buildEdgesWith (tris : List Tri) (test : Nat → Nat → Bool)
    (e : Nat × Nat) :
    e ∈ buildEdgesWith tris test ↔
      (edgeCount tris e = 1 ∨
        (edgeCount tris e = 2 ∧
          test (adjTriangle tris e 0) (adjTriangle tris e 1) = true)) := by
  have hnd := nodup_edgeKeys_buildEdgeMap tris
  have hlk := lookupEdge_buildEdgeMap tris e
  constructor
  · intro h
    obtain ⟨kd, hmem, hsel⟩ := List.mem_filterMap.mp h
    obtain ⟨k, d⟩ := kd
    have hk : e = k := (selectEdge_eq_some test (k, d) e hsel).symm
    cases hk
    have hlook : lookupEdge (buildEdgeMap tris) e = some d :=
      lookupEdge_of_mem _ _ _ hnd hmem
    rw [hlk] at hlook
    rcases hlist : edgeTriangles tris e with _ | ⟨t1, l1⟩
    · rw [hlist] at hlook; simp [mergeData] at hlook
    · rw [hlist] at hlook
      simp only [mergeData, Option.some.injEq] at hlook
      cases hlook
      simp only [edgeCount, hlist]
      rcases l1 with _ | ⟨t2, l2⟩
      · left; simp
      · rcases l2 with _ | ⟨t3, l3⟩
        · right
          rw [selectEdge_mk] at hsel
          rw [if_neg (show ¬((t1 :: [t2]).length = 1) by simp),
            if_pos (show (t1 :: [t2]).length = 2 by simp)] at hsel
          refine ⟨by simp, ?_⟩
          simp only [adjTriangle, hlist, List.getD_cons_zero,
            List.getD_cons_succ]
          by_cases ht : test t1 t2 = true
          · exact ht
          · simp [ht] at hsel
        · exfalso
          rw [selectEdge_mk] at hsel
          rw [if_neg (show ¬((t1 :: t2 :: t3 :: l3).length = 1) by
              simp only [List.length_cons]; omega),
            if_neg (show ¬((t1 :: t2 :: t3 :: l3).length = 2) by
              simp only [List.length_cons]; omega)] at hsel
          simp at hsel
  · intro h
    rcases hlist : edgeTriangles tris e with _ | ⟨t1, l1⟩
    · simp [edgeCount, hlist] at h
    · apply List.mem_filterMap.mpr
      rw [hlist] at hlk
      simp only [mergeData] at hlk
      refine ⟨(e, ⟨(t1 :: l1).length, t1 :: l1⟩), mem_of_lookupEdge _ _ _ hlk, ?_⟩
      simp only [edgeCount, hlist] at h
      rcases h with h1 | ⟨h2, htest⟩
      · have : l1 = [] := by
          rcases l1 with _ | ⟨a, b⟩
          · rfl
          · simp at h1
        subst this
        simp [selectEdge_mk]
      · rcases l1 with _ | ⟨t2, l2⟩
        · simp at h2
        · have : l2 = [] := by
            rcases l2 with _ | ⟨a, b⟩
            · rfl
            · simp at h2
          subst this
          simp only [adjTriangle, hlist, List.getD_cons_zero,
            List.getD_cons_succ] at htest
          rw [selectEdge_mk,
            if_neg (show ¬((t1 :: [t2]).length = 1) by simp),
            if_pos (show (t1 :: [t2]).length = 2 by simp)]
          simp [htest]

/-- C1: every boundary edge (exactly one adjacent triangle) is produced;
an edge with exactly two adjacent triangles is produced iff the angle between
the two faces' normals exceeds the threshold; all other interior edges are
excluded.  `test` is the Boolean angle comparison the source performs with
floating-point `angleTo`; the hypothesis ties it to the exact predicate. -/
theorem buildEdges_boundary_and_crease
    (verts : List Vec3) (idx : Option (List Nat)) (test : Nat → Nat → Bool)
    (θ : ℝ)
    (htest : ∀ t1 t2 : Nat,
      test t1 t2 = true ↔
        angleExceeds (faceNormal verts (trisOfGeometry verts idx) t1)
          (faceNormal verts (trisOfGeometry verts idx) t2) θ)
    (e : Nat × Nat) :
    e ∈ buildEdgesFromGeometry verts idx test ↔
      (edgeCount (trisOfGeometry verts idx) e = 1 ∨
        (edgeCount (trisOfGeometry verts idx) e = 2 ∧
          angleExceeds
            (faceNormal verts (trisOfGeometry verts idx)
              (adjTriangle (trisOfGeometry verts idx) e 0))
            (faceNormal verts (trisOfGeometry verts idx)
              (adjTriangle (trisOfGeometry verts idx) e 1)) θ)) := by
  rw [buildEdgesFromGeometry, mem_buildEdgesWith]
  constructor
  · rintro (h1 | ⟨h2, ht⟩)
    · exact Or.inl h1
    · exact Or.inr ⟨h2, (htest _ _).mp ht⟩
  · rintro (h1 | ⟨h2, ha⟩)
    · exact Or.inl h1
    · exact Or.inr ⟨h2, (htest _ _).mpr ha⟩

/-- C10: a non-manifold edge (shared by three or more triangles) is excluded
from the produced edge list, whatever the angle test says. -/
theorem nonmanifold_edge_excluded
    (verts : List Vec3) (idx : Option (List Nat)) (test : Nat → Nat → Bool)
    (e : Nat × Nat) (h3 : 3 ≤ edgeCount (trisOfGeometry verts idx) e) :
    e ∉ buildEdgesFromGeometry verts idx test := by
  rw [buildEdgesFromGeometry, mem_buildEdgesWith]
  rintro (h1 | ⟨h2, _⟩) <;> omega

/-- Positions for the C10 witness: three triangles fanning around the shared
edge from `(0,0,0)` to `(1,0,0)`. -/
def nonmanifoldVerts : List Vec3 :=
  [⟨0, 0, 0⟩, ⟨1, 0, 0⟩, ⟨0, 1, 0⟩, ⟨0, 0, 1⟩, ⟨0, -1, 0⟩]

/-- Witness for C10: edge `(0,1)` is shared by three triangles and does not
appear in the output, even with an always-true angle test. -/
theorem nonmanifold_edge_excluded_witness :
    3 ≤ edgeCount (trisOfGeometry nonmanifoldVerts
      (some [0, 1, 2, 0, 1, 3, 0, 1, 4])) (0, 1) ∧
    (0, 1) ∉ buildEdgesFromGeometry nonmanifoldVerts
      (some [0, 1, 2, 0, 1, 3, 0, 1, 4]) (fun _ _ => true) :=
  ⟨by decide,
    nonmanifold_edge_excluded nonmanifoldVerts
      (some [0, 1, 2, 0, 1, 3, 0, 1, 4]) (fun _ _ => true) (0, 1) (by decide)⟩

/-!
Claim C2 machinery: when every canonical key occurs exactly once across all
triangles, the edge map is exactly the key stream and every edge is boundary.
-/

/-- The vertex indices of a triangle. -/
def triVertexList (t : Tri) : List Nat := [t.1, t.2.1, t.2.2]

/-- All canonical keys emitted by the triangle loop, each paired with the
triangle index that emitted it, in emission order. -/
def keyStreamAux : List Tri → Nat → List ((Nat × Nat) × Nat)
  | [], _ => []
  | t :: rest, i =>
    (triEdgeKeys t).map (fun k => (k, i)) ++ keyStreamAux rest (i + 1)

def keyStream (tris : List Tri) : List ((Nat × Nat) × Nat) :=
  keyStreamAux tris 0

theorem getEdgeKey_eq (a b : Nat) : getEdgeKey a b = (min a b, max a b) := by
  unfold getEdgeKey
  by_cases h : a < b
  · rw [if_pos h]
    have h1 : min a b = a := by omega
    have h2 : max a b = b := by omega
    rw [h1, h2]
  · rw [if_neg h]
    have h1 : min a b = b := by omega
    have h2 : max a b = a := by omega
    rw [h1, h2]

theorem insertEdge_fresh (m : List ((Nat × Nat) × EdgeData)) (k : Nat × Nat)
    (t : Nat) (h : k ∉ edgeKeys m) :
    insertEdge m k t = m ++ [(k, ⟨1, [t]⟩)] := by
  induction m with
  | nil => rfl
  | cons hd rest ih =>
    obtain ⟨k0, d⟩ := hd
    have hsplit : k ∉ (k0 :: edgeKeys rest) := h
    have h' : k ≠ k0 ∧ k ∉ edgeKeys rest :=
      ⟨fun hc => hsplit (by simp [hc]), fun hc => hsplit (by simp [hc])⟩
    rw [show insertEdge ((k0, d) :: rest) k t =
      if k0 = k then (k0, ⟨d.count + 1, d.triangles ++ [t]⟩) :: rest
      else (k0, d) :: insertEdge rest k t from rfl]
    rw [if_neg (Ne.symm h'.1), ih h'.2]
    rfl

theorem edgeKeys_append (m1 m2 : List ((Nat × Nat) × EdgeData)) :
    edgeKeys (m1 ++ m2) = edgeKeys m1 ++ edgeKeys m2 := by
  simp [edgeKeys]

theorem addTriangle_fresh (m : List ((Nat × Nat) × EdgeData)) (i : Nat)
    (t : Tri) (h1 : (triEdgeKeys t).Nodup)
    (h2 : ∀ k ∈ triEdgeKeys t, k ∉ edgeKeys m) :
    addTriangle m i t =
      m ++ (triEdgeKeys t).map (fun k => (k, (⟨1, [i]⟩ : EdgeData))) := by
  obtain ⟨a, b, c⟩ := t
  set ka := getEdgeKey a b with hka
  set kb := getEdgeKey b c with hkb
  set kc := getEdgeKey c a with hkc
  have hkeys : triEdgeKeys (a, b, c) = [ka, kb, kc] := rfl
  rw [hkeys] at h1 h2
  have hab : ka ≠ kb := by
    intro hcon
    have := List.nodup_cons.mp h1
    exact this.1 (by simp [hcon])
  have hac : ka ≠ kc := by
    intro hcon
    have := List.nodup_cons.mp h1
    exact this.1 (by simp [hcon])
  have hbc : kb ≠ kc := by
    intro hcon
    have h1b := (List.nodup_cons.mp h1).2
    exact (List.nodup_cons.mp h1b).1 (by simp [hcon])
  have hfa : ka ∉ edgeKeys m := h2 ka (by simp)
  have hfb : kb ∉ edgeKeys m := h2 kb (by simp)
  have hfc : kc ∉ edgeKeys m := h2 kc (by simp)
  rw [show addTriangle m i (a, b, c) =
    insertEdge (insertEdge (insertEdge m ka i) kb i) kc i from rfl]
  rw [insertEdge_fresh m ka i hfa]
  rw [insertEdge_fresh _ kb i (by
    rw [edgeKeys_append]
    simp only [List.mem_append, not_or]
    refine ⟨hfb, ?_⟩
    simp only [edgeKeys, List.map_cons, List.map_nil, List.mem_singleton]
    exact fun hc => hab hc.symm)]
  rw [insertEdge_fresh _ kc i (by
    rw [edgeKeys_append, edgeKeys_append]
    simp only [List.mem_append, not_or]
    refine ⟨⟨hfc, ?_⟩, ?_⟩
    · simp only [edgeKeys, List.map_cons, List.map_nil, List.mem_singleton]
      exact fun hc => hac hc.symm
    · simp only [edgeKeys, List.map_cons, List.map_nil, List.mem_singleton]
      exact fun hc => hbc hc.symm)]
  simp [hkeys]

theorem keyStreamAux_map_fst (tris : List Tri) (i : Nat) :
    (keyStreamAux tris i).map Prod.fst =
      match tris with
      | [] => []
      | t :: rest => triEdgeKeys t ++ (keyStreamAux rest (i + 1)).map Prod.fst := by
  cases tris with
  | nil => rfl
  | cons t rest =>
    simp only [keyStreamAux, List.map_append, List.map_map]
    rw [show (Prod.fst ∘ fun k : Nat × Nat => (k, i)) = id from rfl,
      List.map_id]

theorem buildEdgeMapAux_nodup_stream (tris : List Tri)
    (m : List ((Nat × Nat) × EdgeData)) (i : Nat)
    (hn : ((keyStreamAux tris i).map Prod.fst).Nodup)
    (hfresh : ∀ p ∈ keyStreamAux tris i, p.1 ∉ edgeKeys m) :
    buildEdgeMapAux m i tris =
      m ++ (keyStreamAux tris i).map (fun p => (p.1, (⟨1, [p.2]⟩ : EdgeData))) := by
  induction tris generalizing m i with
  | nil => simp [buildEdgeMapAux, keyStreamAux]
  | cons t rest ih =>
    rw [keyStreamAux_map_fst] at hn
    have hnd := List.nodup_append.mp hn
    have ht1 : (triEdgeKeys t).Nodup := hnd.1
    have hrest : ((keyStreamAux rest (i + 1)).map Prod.fst).Nodup := hnd.2.1
    have hdisjkeys := hnd.2.2
    have ht2 : ∀ k ∈ triEdgeKeys t, k ∉ edgeKeys m := by
      intro k hk
      exact hfresh (k, i) (by
        simp only [keyStreamAux, List.mem_append]
        exact Or.inl (List.mem_map_of_mem _ hk))
    rw [show buildEdgeMapAux m i (t :: rest) =
      buildEdgeMapAux (addTriangle m i t) (i + 1) rest from rfl]
    rw [addTriangle_fresh m i t ht1 ht2]
    rw [ih _ (i + 1) hrest (by
      intro p hp
      rw [edgeKeys_append]
      simp only [List.mem_append, not_or]
      constructor
      · exact hfresh p (by
          simp only [keyStreamAux, List.mem_append]
          exact Or.inr hp)
      · intro hc
        have hp1 : p.1 ∈ (keyStreamAux rest (i + 1)).map Prod.fst :=
          List.mem_map_of_mem _ hp
        have hc2 : p.1 ∈ triEdgeKeys t := by
          simpa [edgeKeys, List.map_map, Function.comp] using hc
        exact hdisjkeys hc2 hp1)]
    rw [List.append_assoc]
    congr 1

theorem buildEdgeMap_of_nodup_stream (tris : List Tri)
    (hn : ((keyStream tris).map Prod.fst).Nodup) :
    buildEdgeMap tris =
      (keyStream tris).map (fun p => (p.1, (⟨1, [p.2]⟩ : EdgeData))) := by
  have h := buildEdgeMapAux_nodup_stream tris [] 0 hn
    (by intro p hp; simp [edgeKeys])
  simpa [buildEdgeMap, keyStream] using h

theorem keyStreamAux_length (tris : List Tri) (i : Nat) :
    (keyStreamAux tris i).length = 3 * tris.length := by
  induction tris generalizing i with
  | nil => simp [keyStreamAux]
  | cons t rest ih =>
    simp only [keyStreamAux, List.length_append, List.length_map, ih,
      List.length_cons, triEdgeKeys]
    simp
    omega

theorem countKey_append (e : Nat × Nat) (l1 l2 : List (Nat × Nat)) :
    countKey e (l1 ++ l2) = countKey e l1 + countKey e l2 := by
  induction l1 with
  | nil => simp [countKey]
  | cons k l1 ih => simp [countKey, ih]; omega

theorem countKey_eq_zero_of_not_mem (e : Nat × Nat) (l : List (Nat × Nat))
    (h : e ∉ l) : countKey e l = 0 := by
  induction l with
  | nil => rfl
  | cons k l ih =>
    have h1 : k ≠ e := fun hc => h (by simp [hc])
    have h2 : e ∉ l := fun hc => h (by simp [hc])
    simp [countKey, h1, ih h2]

theorem countKey_le_one_of_nodup (e : Nat × Nat) (l : List (Nat × Nat))
    (h : l.Nodup) : countKey e l ≤ 1 := by
  induction l with
  | nil => simp [countKey]
  | cons k l ih =>
    have hnd := List.nodup_cons.mp h
    by_cases hk : k = e
    · subst hk
      have := countKey_eq_zero_of_not_mem k l hnd.1
      simp [countKey, this]
    · simp [countKey, hk]
      exact ih hnd.2

theorem edgeCount_eq_countKey_stream (tris : List Tri) (e : Nat × Nat) :
    ∀ i, (edgeTrianglesAux e tris i).length =
      countKey e ((keyStreamAux tris i).map Prod.fst) := by
  induction tris with
  | nil => intro i; simp [edgeTrianglesAux, keyStreamAux, countKey]
  | cons t rest ih =>
    intro i
    rw [keyStreamAux_map_fst]
    simp only [edgeTrianglesAux, List.length_append, List.length_replicate,
      countKey_append, ih (i + 1)]

/-- Helper for C2: with a duplicate-free key stream, the output is exactly the
stream of canonical keys, and every produced edge is a boundary edge. -/
theorem buildEdgesWith_of_nodup_stream (tris : List Tri)
    (test : Nat → Nat → Bool)
    (hn : ((keyStream tris).map Prod.fst).Nodup) :
    (buildEdgesWith tris test).length = 3 * tris.length ∧
    ∀ e ∈ buildEdgesWith tris test, edgeCount tris e = 1 := by
  constructor
  · rw [buildEdgesWith, buildEdgeMap_of_nodup_stream tris hn,
      List.filterMap_map]
    have hfun : (selectEdge test ∘ fun p : (Nat × Nat) × Nat =>
        (p.1, (⟨1, [p.2]⟩ : EdgeData))) = some ∘ fun p => p.1 := by
      funext p
      simp [Function.comp, selectEdge_mk]
    rw [hfun, List.filterMap_eq_map, List.length_map, keyStream,
      keyStreamAux_length]
  · intro e he
    have hchar := (mem_buildEdgesWith tris test e).mp he
    have hle : edgeCount tris e ≤ 1 := by
      rw [edgeCount, edgeTriangles, edgeCount_eq_countKey_stream tris e 0]
      exact countKey_le_one_of_nodup _ _ hn
    rcases hchar with h1 | ⟨h2, _⟩
    · exact h1
    · omega

theorem mem_keyStreamAux_keys (tris : List Tri) (i : Nat) (k : Nat × Nat)
    (h : k ∈ (keyStreamAux tris i).map Prod.fst) :
    ∃ t ∈ tris, k ∈ triEdgeKeys t := by
  induction tris generalizing i with
  | nil => simp [keyStreamAux] at h
  | cons t rest ih =>
    rw [keyStreamAux_map_fst] at h
    rcases List.mem_append.mp h with h | h
    · exact ⟨t, by simp, h⟩
    · obtain ⟨u, hu, hk⟩ := ih (i + 1) h
      exact ⟨u, by simp [hu], hk⟩

theorem key_fst_mem_triVertexList (t : Tri) (k : Nat × Nat)
    (h : k ∈ triEdgeKeys t) : k.1 ∈ triVertexList t := by
  obtain ⟨a, b, c⟩ := t
  simp only [triEdgeKeys, List.mem_cons, List.mem_singleton,
    List.not_mem_nil, or_false] at h
  rcases h with h | h | h <;> rw [h, getEdgeKey_eq] <;>
    simp [triVertexList] <;> omega

theorem triEdgeKeys_nodup (t : Tri) (h : (triVertexList t).Nodup) :
    (triEdgeKeys t).Nodup := by
  obtain ⟨a, b, c⟩ := t
  have hab : a ≠ b := by
    intro hc; rw [show triVertexList (a, b, c) = [a, b, c] from rfl, hc] at h
    simp at h
  have hac : a ≠ c := by
    intro hc; rw [show triVertexList (a, b, c) = [a, b, c] from rfl, hc] at h
    simp at h
  have hbc : b ≠ c := by
    intro hc; rw [show triVertexList (a, b, c) = [a, b, c] from rfl, hc] at h
    simp at h
  have k1 : getEdgeKey a b ≠ getEdgeKey b c := by
    rw [getEdgeKey_eq, getEdgeKey_eq]
    intro hc
    rw [Prod.mk.injEq] at hc
    omega
  have k2 : getEdgeKey a b ≠ getEdgeKey c a := by
    rw [getEdgeKey_eq, getEdgeKey_eq]
    intro hc
    rw [Prod.mk.injEq] at hc
    omega
  have k3 : getEdgeKey b c ≠ getEdgeKey c a := by
    rw [getEdgeKey_eq, getEdgeKey_eq]
    intro hc
    rw [Prod.mk.injEq] at hc
    omega
  simp [triEdgeKeys, k1, k2, k3]

/-- The key stream of pairwise-vertex-disjoint, internally distinct triangles
has no duplicate key. -/
theorem keyStream_nodup (tris : List Tri)
    (hdistinct : ∀ t ∈ tris, (triVertexList t).Nodup)
    (hdisj : List.Pairwise
      (fun t1 t2 => ∀ v ∈ triVertexList t1, v ∉ triVertexList t2) tris) :
    ((keyStream tris).map Prod.fst).Nodup := by
  rw [keyStream]
  suffices h : ∀ i, ((keyStreamAux tris i).map Prod.fst).Nodup from h 0
  induction tris with
  | nil => intro i; simp [keyStreamAux]
  | cons t rest ih =>
    intro i
    have hd := List.pairwise_cons.mp hdisj
    have hdist := hdistinct t (by simp)
    have hrest := ih (fun u hu => hdistinct u (by simp [hu])) hd.2 (i + 1)
    rw [keyStreamAux_map_fst]
    rw [List.nodup_append]
    refine ⟨triEdgeKeys_nodup t hdist, hrest, ?_⟩
    intro k hk1 hk2
    obtain ⟨u, hu, hku⟩ := mem_keyStreamAux_keys rest (i + 1) k hk2
    have hv1 : k.1 ∈ triVertexList t := key_fst_mem_triVertexList t k hk1
    have hv2 : k.1 ∈ triVertexList u := key_fst_mem_triVertexList u k hku
    exact hd.1 u hu k.1 hv1 hv2

/-- C2 (amended): a geometry of `N` triangles, no vertex index shared between
two different triangles and each triangle's three vertex indices pairwise
distinct, produces exactly `3 * N` edges, all boundary (`count == 1`).  (The
claim's figure of `N` edges is refuted by `single_triangle_three_edges`.) -/
theorem disjoint_triangles_boundary_edges
    (verts : List Vec3) (idx : Option (List Nat)) (test : Nat → Nat → Bool)
    (hdistinct : ∀ t ∈ trisOfGeometry verts idx, (triVertexList t).Nodup)
    (hdisj : List.Pairwise
      (fun t1 t2 => ∀ v ∈ triVertexList t1, v ∉ triVertexList t2)
      (trisOfGeometry verts idx)) :
    (buildEdgesFromGeometry verts idx test).length =
      3 * (trisOfGeometry verts idx).length ∧
    ∀ e ∈ buildEdgesFromGeometry verts idx test,
      edgeCount (trisOfGeometry verts idx) e = 1 := by
  have hn := keyStream_nodup (trisOfGeometry verts idx) hdistinct hdisj
  exact buildEdgesWith_of_nodup_stream (trisOfGeometry verts idx) test hn

/-- Positions for the C2 witness: two triangles sharing no vertex index. -/
def twoTriVerts : List Vec3 :=
  [⟨0, 0, 0⟩, ⟨1, 0, 0⟩, ⟨0, 1, 0⟩, ⟨3, 0, 0⟩, ⟨4, 0, 0⟩, ⟨3, 1, 0⟩]

/-- Witness for the amended C2 on two vertex-disjoint triangles: six edges,
each boundary. -/
theorem disjoint_triangles_boundary_edges_witness :
    (buildEdgesFromGeometry twoTriVerts (some [0, 1, 2, 3, 4, 5])
        (fun _ _ => true)).length =
      3 * (trisOfGeometry twoTriVerts (some [0, 1, 2, 3, 4, 5])).length ∧
    ∀ e ∈ buildEdgesFromGeometry twoTriVerts (some [0, 1, 2, 3, 4, 5])
        (fun _ _ => true),
      edgeCount (trisOfGeometry twoTriVerts (some [0, 1, 2, 3, 4, 5])) e = 1 :=
  disjoint_triangles_boundary_edges twoTriVerts (some [0, 1, 2, 3, 4, 5])
    (fun _ _ => true) (by decide) (by decide)

/-- C2 counterexample: a geometry with a single triangle of three distinct
vertices (so no vertex is shared between any two triangles) yields three
edges, not `N = 1` edge as claimed. -/
theorem single_triangle_three_edges :
    buildEdgesFromGeometry [⟨0, 0, 0⟩, ⟨1, 0, 0⟩, ⟨0, 1, 0⟩] (some [0, 1, 2])
        (fun _ _ => true) = [(0, 1), (1, 2), (0, 2)] ∧
    ((3 : Nat) ≠ 1) := by
  constructor
  · decide
  · decide

/-!
Witness data for C1: two triangles sharing edge `(0,1)` with perpendicular
face normals (angle `π/2 > 1`), all other edges boundary.
-/

def c1Verts : List Vec3 := [⟨0, 0, 0⟩, ⟨1, 0, 0⟩, ⟨0, 1, 0⟩, ⟨0, 0, 1⟩]

def c1Idx : Option (List Nat) := some [0, 1, 2, 1, 0, 3]

def c1Test : Nat → Nat → Bool := fun t1 t2 => decide (¬(t1 = t2 ∧ t1 < 2))

theorem faceNormal_eq (verts : List Vec3) (tris : List Tri) (i : Nat) :
    faceNormal verts tris i =
      Vec3.cross
        (Vec3.sub (getVert verts (triAt tris i).2.2)
          (getVert verts (triAt tris i).2.1))
        (Vec3.sub (getVert verts (triAt tris i).1)
          (getVert verts (triAt tris i).2.1)) := rfl

theorem c1_tris : trisOfGeometry c1Verts c1Idx = [(0, 1, 2), (1, 0, 3)] := rfl

theorem c1_normal0 :
    faceNormal c1Verts (trisOfGeometry c1Verts c1Idx) 0 = ⟨0, 0, 1⟩ := by
  rw [faceNormal_eq, c1_tris]
  rw [show triAt [(0, 1, 2), (1, 0, 3)] 0 = (0, 1, 2) from rfl]
  rw [show getVert c1Verts 0 = ⟨0, 0, 0⟩ from rfl,
    show getVert c1Verts 1 = ⟨1, 0, 0⟩ from rfl,
    show getVert c1Verts 2 = ⟨0, 1, 0⟩ from rfl]
  simp only [Vec3.sub, Vec3.cross, Vec3.mk.injEq]
  norm_num

theorem c1_normal1 :
    faceNormal c1Verts (trisOfGeometry c1Verts c1Idx) 1 = ⟨0, 1, 0⟩ := by
  rw [faceNormal_eq, c1_tris]
  rw [show triAt [(0, 1, 2), (1, 0, 3)] 1 = (1, 0, 3) from rfl]
  rw [show getVert c1Verts 0 = ⟨0, 0, 0⟩ from rfl,
    show getVert c1Verts 1 = ⟨1, 0, 0⟩ from rfl,
    show getVert c1Verts 3 = ⟨0, 0, 1⟩ from rfl]
  simp only [Vec3.sub, Vec3.cross, Vec3.mk.injEq]
  norm_num

theorem c1_normal_ge (t : Nat) (ht : 2 ≤ t) :
    faceNormal c1Verts (trisOfGeometry c1Verts c1Idx) t = Vec3.zero := by
  have htri : triAt (trisOfGeometry c1Verts c1Idx) t = (0, 0, 0) := by
    apply List.getD_eq_default
    calc (trisOfGeometry c1Verts c1Idx).length = 2 := by rw [c1_tris]; rfl
    _ ≤ t := ht
  rw [faceNormal_eq, htri]
  rw [show getVert c1Verts 0 = ⟨0, 0, 0⟩ from rfl]
  simp only [Vec3.sub, Vec3.cross, Vec3.zero, Vec3.mk.injEq]
  norm_num

theorem angleExceeds_of_perp_unit (n1 n2 : Vec3)
    (h1 : Vec3.normSq n1 = 1) (h2 : Vec3.normSq n2 = 1)
    (hd : Vec3.dot n1 n2 = 0) : angleExceeds n1 n2 1 := by
  unfold angleExceeds
  rw [if_neg (by rw [h1, h2]; norm_num)]
  rw [h1, h2, hd]
  push_cast
  rw [Real.sqrt_one]
  have hc : (0 : ℝ) < Real.cos 1 :=
    Real.cos_pos_of_mem_Ioo
      ⟨by linarith [Real.pi_pos], by linarith [Real.pi_gt_three]⟩
  simpa using hc

theorem not_angleExceeds_self_unit (n : Vec3)
    (h1 : Vec3.normSq n = 1) : ¬ angleExceeds n n 1 := by
  unfold angleExceeds
  rw [if_neg (by rw [h1]; norm_num)]
  have hd : Vec3.dot n n = 1 := h1
  rw [h1, hd]
  push_cast
  rw [Real.sqrt_one]
  intro hc
  have := Real.cos_le_one 1
  simp at hc
  linarith

theorem angleExceeds_zero_left (n : Vec3) : angleExceeds Vec3.zero n 1 := by
  unfold angleExceeds
  rw [if_pos (Or.inl (by norm_num [Vec3.normSq, Vec3.dot, Vec3.zero]))]
  linarith [Real.pi_gt_three]

theorem angleExceeds_zero_right (n : Vec3) : angleExceeds n Vec3.zero 1 := by
  unfold angleExceeds
  rw [if_pos (Or.inr (by norm_num [Vec3.normSq, Vec3.dot, Vec3.zero]))]
  linarith [Real.pi_gt_three]

theorem c1_htest : ∀ t1 t2 : Nat,
    c1Test t1 t2 = true ↔
      angleExceeds (faceNormal c1Verts (trisOfGeometry c1Verts c1Idx) t1)
        (faceNormal c1Verts (trisOfGeometry c1Verts c1Idx) t2) 1 := by
  intro t1 t2
  simp only [c1Test, decide_eq_true_eq]
  rcases t1 with _ | t1
  · rcases t2 with _ | t2
    · rw [c1_normal0]
      exact iff_of_false (by omega)
        (not_angleExceeds_self_unit _ (by norm_num [Vec3.normSq, Vec3.dot]))
    · rcases t2 with _ | t2
      · rw [c1_normal0, c1_normal1]
        exact iff_of_true (by omega)
          (angleExceeds_of_perp_unit _ _ (by norm_num [Vec3.normSq, Vec3.dot])
            (by norm_num [Vec3.normSq, Vec3.dot])
            (by norm_num [Vec3.dot]))
      · rw [c1_normal0, c1_normal_ge (t2 + 2) (by omega)]
        exact iff_of_true (by omega) (angleExceeds_zero_right _)
  · rcases t1 with _ | t1
    · rcases t2 with _ | t2
      · rw [c1_normal1, c1_normal0]
        exact iff_of_true (by omega)
          (angleExceeds_of_perp_unit _ _ (by norm_num [Vec3.normSq, Vec3.dot])
            (by norm_num [Vec3.normSq, Vec3.dot])
            (by norm_num [Vec3.dot]))
      · rcases t2 with _ | t2
        · rw [c1_normal1]
          exact iff_of_false (by omega)
            (not_angleExceeds_self_unit _ (by norm_num [Vec3.normSq, Vec3.dot]))
        · rw [c1_normal1, c1_normal_ge (t2 + 2) (by omega)]
          exact iff_of_true (by omega) (angleExceeds_zero_right _)
    · rw [c1_normal_ge (t1 + 2) (by omega)]
      exact iff_of_true (by omega) (angleExceeds_zero_left _)

/-- Witness for C1 at the concrete crease geometry, edge `(0, 1)`. -/
theorem buildEdges_boundary_and_crease_witness :
    (0, 1) ∈ buildEdgesFromGeometry c1Verts c1Idx c1Test ↔
      (edgeCount (trisOfGeometry c1Verts c1Idx) (0, 1) = 1 ∨
        (edgeCount (trisOfGeometry c1Verts c1Idx) (0, 1) = 2 ∧
          angleExceeds
            (faceNormal c1Verts (trisOfGeometry c1Verts c1Idx)
              (adjTriangle (trisOfGeometry c1Verts c1Idx) (0, 1) 0))
            (faceNormal c1Verts (trisOfGeometry c1Verts c1Idx)
              (adjTriangle (trisOfGeometry c1Verts c1Idx) (0, 1) 1)) 1)) :=
  buildEdges_boundary_and_crease c1Verts c1Idx c1Test 1 c1_htest (0, 1)

/-!
Claim C3: behaviour on a geometry without a position buffer.
`triangleToFaceMapFromGeometry` guards (`if (!geometry ||
!geometry.attributes.position) return {}`); `buildEdgesFromGeometry` has no
guard: with no index it reads `position.count` of `undefined` (TypeError), and
with an index it reads `faceMap[t1].normal` of an `undefined` entry whenever a
`count == 2` edge exists.  Exceptions are modelled with `Except Unit`.
-/

/-- The face record built per triangle: material index 0, face normal, and the
three vertices.  As with `faceNormal`, the stored normal is the raw cross
product `cb × ab`; the source normalizes it, which only rescales it. -/
structure Face where
  materialIndex : Nat
  normal : Vec3
  vertices : List Vec3
deriving DecidableEq, Repr

/-- A `THREE.BufferGeometry` as the analyzer sees it: an optional position
buffer and an optional index buffer. -/
structure BufferGeometry where
  position : Option (List Vec3)
  index : Option (List Nat)

/-- `triangleToFaceMapFromGeometry` (src/core/primitives.js, lines 10-54). -/
def triangleToFaceMapFromGeometry (g : BufferGeometry) : List (Nat × Face) :=
  match g.position with
  | none => []
  | some verts =>
    let tris := trisOfGeometry verts g.index
    (List.range tris.length).map (fun i =>
      (i, { materialIndex := 0
            normal := faceNormal verts tris i
            vertices := [getVert verts (triAt tris i).1,
              getVert verts (triAt tris i).2.1,
              getVert verts (triAt tris i).2.2] }))

/-- `faceMap[t]` access. -/
def lookupFace : List (Nat × Face) → Nat → Option Face
  | [], _ => none
  | (j, f) :: rest, i => if j = i then some f else lookupFace rest i

/-- The output-loop body with exceptions: reading `.normal` of a missing
`faceMap` entry throws.  `test` is the angle comparison on the two normals. -/
def selectEdgeE (fm : List (Nat × Face)) (test : Vec3 → Vec3 → Bool)
    (e : (Nat × Nat) × EdgeData) : Except Unit (Option (Nat × Nat)) :=
  if e.2.count = 1 then .ok (some e.1)
  else if e.2.count = 2 then
    match e.2.triangles with
    | t1 :: t2 :: _ =>
      match lookupFace fm t1, lookupFace fm t2 with
      | some f1, some f2 =>
        .ok (if test f1.normal f2.normal then some e.1 else none)
      | _, _ => .error ()
    | _ => .error ()
  else .ok none

def collectEdgesE (fm : List (Nat × Face)) (test : Vec3 → Vec3 → Bool) :
    List ((Nat × Nat) × EdgeData) → Except Unit (List (Nat × Nat))
  | [] => .ok []
  | kd :: rest =>
    match selectEdgeE fm test kd with
    | .error _ => .error ()
    | .ok none => collectEdgesE fm test rest
    | .ok (some e) =>
      match collectEdgesE fm test rest with
      | .error _ => .error ()
      | .ok es => .ok (e :: es)

/-- `buildEdgesFromGeometry` on a raw geometry, exceptions modelled.  With no
position and no index, `triangleCount = position.count / 3` throws at once. -/
def buildEdgesFromGeometryE (g : BufferGeometry) (test : Vec3 → Vec3 → Bool) :
    Except Unit (List (Nat × Nat)) :=
  match g.position, g.index with
  | none, none => .error ()
  | pos, idx =>
    let tris :=
      match idx with
      | some ixs => chunkTris ixs
      | none => implicitTris (pos.getD []).length
    collectEdgesE (triangleToFaceMapFromGeometry g) test (buildEdgeMap tris)

/-- C3 evaluation: the face-map side of the claim holds (empty map, no throw)
but the edge side fails: with no position buffer `buildEdgesFromGeometry`
throws when the geometry is non-indexed, throws on any indexed geometry with
an interior edge, and on an indexed geometry with only boundary edges returns
a non-empty list instead of the claimed empty result. -/
theorem missing_position_behavior :
    triangleToFaceMapFromGeometry ⟨none, none⟩ = [] ∧
    triangleToFaceMapFromGeometry ⟨none, some [0, 1, 2, 1, 0, 3]⟩ = [] ∧
    buildEdgesFromGeometryE ⟨none, none⟩ (fun _ _ => true) = .error () ∧
    buildEdgesFromGeometryE ⟨none, some [0, 1, 2, 1, 0, 3]⟩
      (fun _ _ => true) = .error () ∧
    buildEdgesFromGeometryE ⟨none, some [0, 1, 2]⟩ (fun _ _ => true) =
      .ok [(0, 1), (1, 2), (0, 2)] :=
  ⟨rfl, rfl, rfl, rfl, rfl⟩

/-!
Bridge: on a geometry that does have a position buffer, the exception-aware
function never throws and agrees with the total embedding used by C1/C2/C10.
-/

theorem mem_edgeTrianglesAux_lt (e : Nat × Nat) (tris : List Tri) (i j : Nat)
    (h : j ∈ edgeTrianglesAux e tris i) : j < i + tris.length := by
  induction tris generalizing i with
  | nil => simp [edgeTrianglesAux] at h
  | cons t rest ih =>
    simp only [edgeTrianglesAux, List.mem_append] at h
    rcases h with h | h
    · have := List.eq_of_mem_replicate h
      subst this
      simp
    · have := ih (i + 1) h
      simp only [List.length_cons]
      omega

theorem lookupFace_append (l1 l2 : List (Nat × Face)) (t : Nat) :
    lookupFace (l1 ++ l2) t =
      match lookupFace l1 t with
      | some f => some f
      | none => lookupFace l2 t := by
  induction l1 with
  | nil => simp [lookupFace]
  | cons hd rest ih =>
    obtain ⟨j, f⟩ := hd
    by_cases hj : j = t
    · simp [lookupFace, hj]
    · simp [lookupFace, hj, ih]

theorem lookupFace_range (f : Nat → Face) (n t : Nat) :
    lookupFace ((List.range n).map (fun i => (i, f i))) t =
      if t < n then some (f t) else none := by
  induction n with
  | zero => simp [lookupFace]
  | succ n ih =>
    rw [List.range_succ, List.map_append, lookupFace_append, ih]
    by_cases ht : t < n
    · simp [ht, Nat.lt_succ_of_lt ht]
    · by_cases ht2 : t = n
      · subst ht2
        simp [lookupFace, ht]
      · have h1 : ¬ t < n + 1 := by omega
        have h2 : n ≠ t := fun h => ht2 h.symm
        simp [ht, h1, lookupFace, h2]

theorem selectEdgeE_mk (fm : List (Nat × Face)) (test : Vec3 → Vec3 → Bool)
    (k : Nat × Nat) (c : Nat) (ts : List Nat) :
    selectEdgeE fm test (k, ⟨c, ts⟩) =
      if c = 1 then .ok (some k)
      else if c = 2 then
        match ts with
        | t1 :: t2 :: _ =>
          match lookupFace fm t1, lookupFace fm t2 with
          | some f1, some f2 =>
            .ok (if test f1.normal f2.normal then some k else none)
          | _, _ => .error ()
        | _ => .error ()
      else .ok none := rfl

theorem collectEdgesE_cons (fm : List (Nat × Face)) (test : Vec3 → Vec3 → Bool)
    (kd : (Nat × Nat) × EdgeData) (rest : List ((Nat × Nat) × EdgeData)) :
    collectEdgesE fm test (kd :: rest) =
      match selectEdgeE fm test kd with
      | .error _ => .error ()
      | .ok none => collectEdgesE fm test rest
      | .ok (some e) =>
        match collectEdgesE fm test rest with
        | .error _ => .error ()
        | .ok es => .ok (e :: es) := rfl

theorem collectEdgesE_eq_filterMap (fm : List (Nat × Face))
    (test : Vec3 → Vec3 → Bool) (nf : Nat → Vec3)
    (hnf : ∀ t f, lookupFace fm t = some f → f.normal = nf t)
    (m : List ((Nat × Nat) × EdgeData))
    (hcnt : ∀ kd ∈ m, kd.2.count = kd.2.triangles.length)
    (hin : ∀ kd ∈ m, ∀ t ∈ kd.2.triangles, ∃ f, lookupFace fm t = some f) :
    collectEdgesE fm test m =
      .ok (m.filterMap (selectEdge (fun t1 t2 => test (nf t1) (nf t2)))) := by
  induction m with
  | nil => rfl
  | cons kd rest ih =>
    obtain ⟨k, c, ts⟩ := kd
    have hc : c = ts.length := hcnt (k, ⟨c, ts⟩) (List.mem_cons_self _ _)
    have hsel : selectEdgeE fm test (k, ⟨c, ts⟩) =
        .ok (selectEdge (fun t1 t2 => test (nf t1) (nf t2)) (k, ⟨c, ts⟩)) := by
      rw [selectEdgeE_mk, selectEdge_mk]
      by_cases h1 : c = 1
      · simp [h1]
      · by_cases h2 : c = 2
        · rcases ts with _ | ⟨t1, _ | ⟨t2, tl⟩⟩
          · rw [h2] at hc; simp at hc
          · rw [h2] at hc; simp at hc
          · simp only [h1, if_false, h2, if_true]
            obtain ⟨f1, hf1⟩ := hin (k, ⟨c, t1 :: t2 :: tl⟩)
              (List.mem_cons_self _ _) t1 (by simp)
            obtain ⟨f2, hf2⟩ := hin (k, ⟨c, t1 :: t2 :: tl⟩)
              (List.mem_cons_self _ _) t2 (by simp)
            simp only [hf1, hf2]
            rw [hnf t1 f1 hf1, hnf t2 f2 hf2]
            simp
        · simp [h1, h2]
    rw [collectEdgesE_cons, hsel,
      ih (fun kd hkd => hcnt kd (by simp [hkd]))
        (fun kd hkd => hin kd (by simp [hkd]))]
    rcases hsel2 : selectEdge (fun t1 t2 => test (nf t1) (nf t2)) (k, ⟨c, ts⟩)
      with _ | e
    · simp [List.filterMap_cons, hsel2]
    · simp [List.filterMap_cons, hsel2]

/-- With a position buffer present, the exception-aware embedding returns
`.ok` of the total embedding's output, the angle test reading the face-map
normals. -/
theorem buildEdgesFromGeometryE_ok (verts : List Vec3) (idx : Option (List Nat))
    (test : Vec3 → Vec3 → Bool) :
    buildEdgesFromGeometryE ⟨some verts, idx⟩ test =
      .ok (buildEdgesFromGeometry verts idx
        (fun t1 t2 => test (faceNormal verts (trisOfGeometry verts idx) t1)
          (faceNormal verts (trisOfGeometry verts idx) t2))) := by
  set tris := trisOfGeometry verts idx with htris
  have hfm : triangleToFaceMapFromGeometry ⟨some verts, idx⟩ =
      (List.range tris.length).map (fun i =>
        (i, { materialIndex := 0
              normal := faceNormal verts tris i
              vertices := [getVert verts (triAt tris i).1,
                getVert verts (triAt tris i).2.1,
                getVert verts (triAt tris i).2.2] })) := rfl
  have hmain : ∀ (k : Nat × Nat) (d : EdgeData),
      (k, d) ∈ buildEdgeMap tris → d = ⟨(edgeTriangles tris k).length,
        edgeTriangles tris k⟩ ∧ edgeTriangles tris k ≠ [] := by
    intro k d hmem
    have hl := lookupEdge_of_mem _ _ _ (nodup_edgeKeys_buildEdgeMap tris) hmem
    rw [lookupEdge_buildEdgeMap] at hl
    rcases hlist : edgeTriangles tris k with _ | ⟨t1, l1⟩
    · rw [hlist] at hl; simp [mergeData] at hl
    · rw [hlist] at hl
      simp only [mergeData, Option.some.injEq] at hl
      exact ⟨hl.symm, by simp⟩
  have hE : buildEdgesFromGeometryE ⟨some verts, idx⟩ test =
      collectEdgesE (triangleToFaceMapFromGeometry ⟨some verts, idx⟩) test
        (buildEdgeMap tris) := by
    rw [buildEdgesFromGeometryE]
    cases idx with
    | none => rfl
    | some ixs => rfl
  rw [hE, hfm]
  rw [collectEdgesE_eq_filterMap _ test (faceNormal verts tris)
    (by
      intro t f hf
      rw [lookupFace_range] at hf
      by_cases hlt : t < tris.length
      · rw [if_pos hlt] at hf
        cases hf
        rfl
      · rw [if_neg hlt] at hf
        cases hf)
    _
    (by
      intro kd hkd
      obtain ⟨k, d⟩ := kd
      have := (hmain k d hkd).1
      rw [this])
    (by
      intro kd hkd t ht
      obtain ⟨k, d⟩ := kd
      have hd := (hmain k d hkd).1
      rw [hd] at ht
      have hlt : t < tris.length := by
        have := mem_edgeTrianglesAux_lt k tris 0 t ht
        omega
      rw [lookupFace_range]
      exact ⟨_, by rw [if_pos hlt]⟩)]
  rfl

/-!
Claim C4: edge picking.  `SceneManager` defines a `findClosestEdge` method
twice in the same class body (lines 731-777 and lines 1169-1185); under JS
class semantics
the later definition wins, so every call site dispatches to the lines
1169-1185 version.  That live version calls
`this.distanceToEdge(point, edge, object)` for each stored edge, and
`distanceToEdge` (lines 715-729) throws a TypeError on its first statement:
the stored edges are the `[v1, v2]` index pairs built by
`buildEdgesFromGeometry`, so `edge.start` is `undefined` and
`new THREE.Vector3().copy(edge.start)` reads `.x` of `undefined`.  (Even an
edge carrying `start`/`end` points would throw: the caller passes the
intersection *point* where `distanceToEdge` expects a ray, and
`closestPointToLine` exists neither on `THREE.Vector3` nor on `THREE.Ray`.)
The live method is embedded below with its exception
(`distanceToEdgeE`, `findClosestEdgeLive`); the overridden lines 731-777
method — dead code, but the implementation the claim cites — is also
analysed, as `findClosestEdgeShadowed`.
-/

def clampQ (lo hi v : ℚ) : ℚ := max lo (min hi v)

/-- Parameter of the closest point on segment `[a, b]` to `p`.  The source
computes `t = clamp(dot(p - a, dir), 0, len)` with `dir` the normalized edge
vector and `len` its length, then takes `a + dir * t`; with `λ = t / len` this
is `λ = clamp(dot(p - a, b - a) / |b - a|², 0, 1)` and the closest point is
`a + λ (b - a)` — the same point, free of square roots.  (For a zero-length
edge both forms give `a`: `THREE.Vector3.normalize` leaves the zero vector
zero, and `ℚ` division by zero is zero.) -/
def closestPointParam (p a b : Vec3) : ℚ :=
  clampQ 0 1 (Vec3.dot (Vec3.sub p a) (Vec3.sub b a) / Vec3.normSq (Vec3.sub b a))

def closestPointOnSeg (p a b : Vec3) : Vec3 :=
  Vec3.add a (Vec3.smul (closestPointParam p a b) (Vec3.sub b a))

/-- Squared distance from `p` to segment `[a, b]`.  The source compares plain
Euclidean distances; comparing squares is equivalent for non-negative
distances, and keeps everything inside `ℚ`. -/
def distSqPointSeg (p a b : Vec3) : ℚ :=
  Vec3.normSq (Vec3.sub p (closestPointOnSeg p a b))

/-- Squared form of the source's `threshold = 0.1`. -/
def edgeThresholdSq : ℚ := 1 / 100

def edgeDistSq (p : Vec3) (vertices : List Vec3) (e : Nat × Nat) : ℚ :=
  distSqPointSeg p (getVert vertices e.1) (getVert vertices e.2)

/-- One iteration of the `findClosestEdgeShadowed` loop: accept an edge whose distance
is below the threshold and strictly below the best so far (`Infinity` before
any edge is accepted, modelled by `none`). -/
def fceStep (p : Vec3) (vertices : List Vec3)
    (acc : Option ((Nat × Nat) × ℚ)) (e : Nat × Nat) :
    Option ((Nat × Nat) × ℚ) :=
  match acc with
  | none =>
    if edgeDistSq p vertices e < edgeThresholdSq
    then some (e, edgeDistSq p vertices e) else none
  | some (e0, d0) =>
    if edgeDistSq p vertices e < edgeThresholdSq ∧ edgeDistSq p vertices e < d0
    then some (e, edgeDistSq p vertices e) else some (e0, d0)

/-- The overridden `SceneManager.findClosestEdge` of lines 731-777 (shadowed
by the lines 1169-1185 definition, hence dead code, but the implementation
the claim's source reference names): `p` is the pick point already mapped
into the object's local space (that version applies the inverse of
`matrixWorld`; the world transform is the identity in all our instances). -/
def findClosestEdgeShadowed (p : Vec3) (edges : List (Nat × Nat))
    (vertices : List Vec3) : Option (Nat × Nat) :=
  (edges.foldl (fceStep p vertices) none).map Prod.fst

/-- A point of the pick ray: `origin + t · direction`. -/
def rayAt (origin dir : Vec3) (t : ℚ) : Vec3 :=
  Vec3.add origin (Vec3.smul t dir)

/-- Loop invariant of `findClosestEdgeShadowed` over the processed part of the edge
list. -/
def FceInv (p : Vec3) (vertices : List Vec3) (processed : List (Nat × Nat)) :
    Option ((Nat × Nat) × ℚ) → Prop
  | none => ∀ e ∈ processed, ¬ edgeDistSq p vertices e < edgeThresholdSq
  | some (e, d) =>
      d = edgeDistSq p vertices e ∧ d < edgeThresholdSq ∧
      (∀ e2 ∈ processed,
        edgeDistSq p vertices e2 < edgeThresholdSq → d ≤ edgeDistSq p vertices e2) ∧
      ∃ l1 l2, processed = l1 ++ e :: l2 ∧
        ∀ e2 ∈ l1, edgeThresholdSq ≤ edgeDistSq p vertices e2 ∨
          d < edgeDistSq p vertices e2

theorem fceStep_inv (p : Vec3) (vertices : List Vec3)
    (processed : List (Nat × Nat)) (acc : Option ((Nat × Nat) × ℚ))
    (e : Nat × Nat) (h : FceInv p vertices processed acc) :
    FceInv p vertices (processed ++ [e]) (fceStep p vertices acc e) := by
  rcases acc with _ | ⟨e0, d0⟩
  · rw [show fceStep p vertices none e =
      (if edgeDistSq p vertices e < edgeThresholdSq
      then some (e, edgeDistSq p vertices e) else none) from rfl]
    by_cases hd : edgeDistSq p vertices e < edgeThresholdSq
    · rw [if_pos hd]
      refine ⟨rfl, hd, ?_, processed, [], rfl, ?_⟩
      · intro e2 he2 _
        rcases List.mem_append.mp he2 with h2 | h2
        · exact absurd (by assumption) (h e2 h2)
        · simp at h2
          subst h2
          exact le_refl _
      · intro e2 he2
        exact Or.inl (not_lt.mp (h e2 he2))
    · rw [if_neg hd]
      intro e2 he2
      rcases List.mem_append.mp he2 with h2 | h2
      · exact h e2 h2
      · simp at h2
        subst h2
        exact hd
  · obtain ⟨hd0eq, hd0θ, hmin, l1, l2, hsplit, hbefore⟩ := h
    rw [show fceStep p vertices (some (e0, d0)) e =
      (if edgeDistSq p vertices e < edgeThresholdSq ∧
        edgeDistSq p vertices e < d0
      then some (e, edgeDistSq p vertices e) else some (e0, d0)) from rfl]
    by_cases hc : edgeDistSq p vertices e < edgeThresholdSq ∧
        edgeDistSq p vertices e < d0
    · rw [if_pos hc]
      refine ⟨rfl, hc.1, ?_, processed, [], rfl, ?_⟩
      · intro e2 he2 hθ2
        rcases List.mem_append.mp he2 with h2 | h2
        · exact le_of_lt (lt_of_lt_of_le hc.2 (hmin e2 h2 hθ2))
        · simp at h2
          subst h2
          exact le_refl _
      · intro e2 he2
        by_cases hθ2 : edgeDistSq p vertices e2 < edgeThresholdSq
        · exact Or.inr (lt_of_lt_of_le hc.2 (hmin e2 he2 hθ2))
        · exact Or.inl (not_lt.mp hθ2)
    · rw [if_neg hc]
      refine ⟨hd0eq, hd0θ, ?_, l1, l2 ++ [e], by rw [hsplit]; simp, hbefore⟩
      intro e2 he2 hθ2
      rcases List.mem_append.mp he2 with h2 | h2
      · exact hmin e2 h2 hθ2
      · simp at h2
        subst h2
        rcases not_and_or.mp hc with h3 | h3
        · exact absurd hθ2 h3
        · exact not_lt.mp h3

theorem fceFold_inv (p : Vec3) (vertices : List Vec3)
    (rem : List (Nat × Nat)) :
    ∀ (processed : List (Nat × Nat)) (acc : Option ((Nat × Nat) × ℚ)),
      FceInv p vertices processed acc →
      FceInv p vertices (processed ++ rem)
        (rem.foldl (fceStep p vertices) acc) := by
  induction rem with
  | nil =>
    intro processed acc h
    simpa using h
  | cons e rem ih =>
    intro processed acc h
    rw [List.foldl_cons]
    have h2 := fceStep_inv p vertices processed acc e h
    have h3 := ih (processed ++ [e]) _ h2
    simpa [List.append_assoc] using h3

/-- Analysis of the shadowed lines 731-777 method (not the program's live
edge-pick behaviour): it returns `none` iff no edge comes within threshold
0.1 of the (local-space) intersection point; when it returns an edge, that
edge is within the threshold, its point-to-segment distance is minimal over
the whole edge list, and it is the first edge in edge-list order attaining
that minimum — distances measured from the intersection point, not from the
ray, so even this version does not implement the claim's ray-distance
semantics. -/
theorem findClosestEdgeShadowed_characterization (p : Vec3)
    (edges : List (Nat × Nat)) (vertices : List Vec3) :
    (findClosestEdgeShadowed p edges vertices = none →
      ∀ e ∈ edges, ¬ edgeDistSq p vertices e < edgeThresholdSq) ∧
    (∀ e, findClosestEdgeShadowed p edges vertices = some e →
      edgeDistSq p vertices e < edgeThresholdSq ∧
      (∀ e2 ∈ edges, edgeDistSq p vertices e ≤ edgeDistSq p vertices e2) ∧
      ∃ l1 l2, edges = l1 ++ e :: l2 ∧
        ∀ e2 ∈ l1, edgeThresholdSq ≤ edgeDistSq p vertices e2 ∨
          edgeDistSq p vertices e < edgeDistSq p vertices e2) := by
  have hinv : FceInv p vertices ([] ++ edges)
      (edges.foldl (fceStep p vertices) none) :=
    fceFold_inv p vertices edges [] none (by intro e he; simp at he)
  rw [List.nil_append] at hinv
  constructor
  · intro hnone e he
    rcases hacc : edges.foldl (fceStep p vertices) none with _ | ⟨e0, d0⟩
    · rw [hacc] at hinv
      exact hinv e he
    · rw [findClosestEdgeShadowed, hacc] at hnone
      simp at hnone
  · intro e hsome
    rcases hacc : edges.foldl (fceStep p vertices) none with _ | ⟨e0, d0⟩
    · rw [findClosestEdgeShadowed, hacc] at hsome
      simp at hsome
    · rw [findClosestEdgeShadowed, hacc] at hsome
      simp at hsome
      subst hsome
      rw [hacc] at hinv
      obtain ⟨hdeq, hdθ, hmin, l1, l2, hsplit, hbefore⟩ := hinv
      subst hdeq
      refine ⟨hdθ, ?_, l1, l2, hsplit, hbefore⟩
      intro e2 he2
      by_cases hθ2 : edgeDistSq p vertices e2 < edgeThresholdSq
      · exact hmin e2 he2 hθ2
      · exact le_of_lt (lt_of_lt_of_le hdθ (not_lt.mp hθ2))

/-- Concrete instance of the shadowed method's characterization: a single
edge through the pick point is returned, with the stated properties. -/
theorem findClosestEdgeShadowed_characterization_witness :
    edgeDistSq ⟨0, 0, 0⟩ [⟨0, 0, 0⟩, ⟨1, 0, 0⟩] (0, 1) < edgeThresholdSq ∧
    (∀ e2 ∈ [((0 : Nat), (1 : Nat))],
      edgeDistSq ⟨0, 0, 0⟩ [⟨0, 0, 0⟩, ⟨1, 0, 0⟩] (0, 1) ≤
        edgeDistSq ⟨0, 0, 0⟩ [⟨0, 0, 0⟩, ⟨1, 0, 0⟩] e2) ∧
    ∃ l1 l2, [((0 : Nat), (1 : Nat))] = l1 ++ (0, 1) :: l2 ∧
      ∀ e2 ∈ l1, edgeThresholdSq ≤
          edgeDistSq ⟨0, 0, 0⟩ [⟨0, 0, 0⟩, ⟨1, 0, 0⟩] e2 ∨
        edgeDistSq ⟨0, 0, 0⟩ [⟨0, 0, 0⟩, ⟨1, 0, 0⟩] (0, 1) <
          edgeDistSq ⟨0, 0, 0⟩ [⟨0, 0, 0⟩, ⟨1, 0, 0⟩] e2 :=
  (findClosestEdgeShadowed_characterization ⟨0, 0, 0⟩ [(0, 1)]
      [⟨0, 0, 0⟩, ⟨1, 0, 0⟩]).2 (0, 1)
    (by norm_num [findClosestEdgeShadowed, fceStep, edgeDistSq, distSqPointSeg,
      closestPointOnSeg, closestPointParam, clampQ, getVert,
      List.getD_cons_zero, List.getD_cons_succ, Vec3.add, Vec3.smul,
      Vec3.sub, Vec3.dot, Vec3.normSq, edgeThresholdSq])

/-- Even the shadowed lines 731-777 method would not satisfy the claim: with
the identity world transform, the pick ray from `(0, 1/20, -10)` along `+z`
passes within the 0.1 threshold of the edge from `(0,0,0)` to `(1,0,0)` (at
ray parameter 10 the ray point is 0.05 from the segment), so by the claim the
edge should be returned; but that method measures from the ray–surface
intersection point — here the hit at ray parameter 0, about 10 units from
the edge — and returns `none`. -/
theorem findClosestEdgeShadowed_ignores_ray_distance :
    distSqPointSeg (rayAt ⟨0, 1/20, -10⟩ ⟨0, 0, 1⟩ 10) ⟨0, 0, 0⟩ ⟨1, 0, 0⟩ ≤
      edgeThresholdSq ∧
    findClosestEdgeShadowed (rayAt ⟨0, 1/20, -10⟩ ⟨0, 0, 1⟩ 0) [(0, 1)]
      [⟨0, 0, 0⟩, ⟨1, 0, 0⟩] = none := by
  constructor
  · norm_num [rayAt, distSqPointSeg, closestPointOnSeg, closestPointParam,
      clampQ, Vec3.add, Vec3.smul, Vec3.sub, Vec3.dot, Vec3.normSq,
      edgeThresholdSq]
  · norm_num [findClosestEdgeShadowed, fceStep, edgeDistSq, rayAt, distSqPointSeg,
      closestPointOnSeg, closestPointParam, clampQ, getVert,
      List.getD_cons_zero, List.getD_cons_succ, Vec3.add, Vec3.smul,
      Vec3.sub, Vec3.dot, Vec3.normSq, edgeThresholdSq]

/-- The value a stored edge actually carries at the live call site.  The
scene's `meta.edges` are the `[v1, v2]` index pairs produced by
`buildEdgesFromGeometry`; `startEnd` models a hypothetical edge record with
`start`/`end` points, the shape `distanceToEdge` expects. -/
inductive EdgeVal
  | pair (v1 v2 : Nat)
  | startEnd (s e : Vec3)
deriving DecidableEq, Repr

/-- `SceneManager.distanceToEdge` (lines 715-729) as invoked by the live
`findClosestEdge`, which passes the intersection point as the first argument.
For a `[v1, v2]` pair, `edge.start` is `undefined`, so the first statement
`new THREE.Vector3().copy(edge.start)` throws a TypeError.  For a
`start`/`end` record it throws two statements later: the first argument is a
`THREE.Vector3`, which has no `closestPointToLine` method (nor does
`THREE.Ray`).  There is no non-throwing path through this function. -/
def distanceToEdgeE (edge : EdgeVal) : Except Unit ℚ :=
  match edge with
  | .pair _ _ => .error ()
  | .startEnd _ _ => .error ()

/-- The live `SceneManager.findClosestEdge` (lines 1169-1185), the definition
every call site dispatches to under JS last-definition-wins: scan
`objectMeta.edges`, keeping the edge of least `distanceToEdge` value below
the running minimum (initially `this.edgeThreshold`); an exception from
`distanceToEdge` propagates out of the loop. -/
def findClosestEdgeLive :
    List EdgeVal → Option EdgeVal → ℚ → Except Unit (Option EdgeVal)
  | [], closestEdge, _ => .ok closestEdge
  | e :: rest, closestEdge, minDistance =>
    match distanceToEdgeE e with
    | .error er => .error er
    | .ok d =>
      if d < minDistance then findClosestEdgeLive rest (some e) d
      else findClosestEdgeLive rest closestEdge minDistance

/-- Entry point with the source's initial accumulator values:
`closestEdge = null`, `minDistance = this.edgeThreshold = 0.1`. -/
def findClosestEdgeDispatch (edges : List EdgeVal) :
    Except Unit (Option EdgeVal) :=
  findClosestEdgeLive edges none (1/10)

/-- C4 evaluation: on any object with at least one stored edge the live edge
pick throws a TypeError on the very first edge — whether the stored value is
one of the `[v1, v2]` pairs the scene actually holds or a `start`/`end`
record — so no closest edge (in any metric) is ever computed or returned;
only an object with no edges at all reaches the no-edge result. -/
theorem edge_pick_throws (e : EdgeVal) (rest : List EdgeVal) :
    findClosestEdgeDispatch (e :: rest) = .error () ∧
    findClosestEdgeDispatch ([] : List EdgeVal) = .ok none := by
  refine ⟨?_, rfl⟩
  cases e <;> rfl

/-- Witness: the live pick throws on a scene-typical `[v1, v2]` edge. -/
theorem edge_pick_throws_witness :
    findClosestEdgeDispatch [EdgeVal.pair 0 1] = .error () ∧
    findClosestEdgeDispatch ([] : List EdgeVal) = .ok none :=
  edge_pick_throws (EdgeVal.pair 0 1) []

/-!
Claims C6/C7: scene export/import (`SceneManager.exportScene`, lines
1003-1030, and `SceneManager.importScene`, lines 1186-1243).  The document's
`objects` field is modelled as `Option (List ObjData)`: `none` stands for a
missing/non-array `objects` (or a JSON parse failure), both detected before
the destructive clear.  `uuid` and `userData` are exported and restored by
the source but play no role in the claims and are omitted.
-/

/-- Euler rotation as serialized by `rotation.toArray()`: three angles and the
order string. -/
structure EulerRot where
  rx : ℚ
  ry : ℚ
  rz : ℚ
  order : String
deriving DecidableEq, Repr

/-- A tracked scene object (`this.objects` metadata plus its mesh transform). -/
structure SceneObject where
  type : String
  name : String
  position : Vec3
  rotation : EulerRot
  scale : Vec3
  params : List (String × ℚ)
deriving DecidableEq, Repr

/-- One entry of the document's `objects` array. -/
structure ObjData where
  type : String
  name : String
  position : Vec3
  rotation : EulerRot
  scale : Vec3
  params : List (String × ℚ)
deriving DecidableEq, Repr

/-- `SceneManager.exportScene`: one document entry per tracked object, copying
type, name, position, rotation (array plus order) and scale. -/
def exportScene (scene : List SceneObject) : List ObjData :=
  scene.map (fun m =>
    { type := m.type, name := m.name, position := m.position,
      rotation := m.rotation, scale := m.scale, params := m.params })

/-- Parameter lookup with default, modelling `{...objData.params}` spread plus
the destructured defaults of `addBox`/`addSphere`/`addCylinder`. -/
def lookupParam (ps : List (String × ℚ)) (k : String) (dflt : ℚ) : ℚ :=
  match ps with
  | [] => dflt
  | (k0, v) :: rest => if k0 = k then v else lookupParam rest k dflt

/-- `SceneManager.addBox` as the importer invokes it: a fresh mesh of type
`Box` at `position` with default rotation and scale. -/
def addBox (params : List (String × ℚ)) (name : String) (position : Vec3) :
    SceneObject :=
  { type := "Box", name := name, position := position,
    rotation := ⟨0, 0, 0, "XYZ"⟩, scale := ⟨1, 1, 1⟩,
    params := [("width", lookupParam params "width" 1),
      ("height", lookupParam params "height" 1),
      ("depth", lookupParam params "depth" 1)] }

def addSphere (params : List (String × ℚ)) (name : String) (position : Vec3) :
    SceneObject :=
  { type := "Sphere", name := name, position := position,
    rotation := ⟨0, 0, 0, "XYZ"⟩, scale := ⟨1, 1, 1⟩,
    params := [("radius", lookupParam params "radius" 1),
      ("widthSegments", lookupParam params "widthSegments" 32),
      ("heightSegments", lookupParam params "heightSegments" 16)] }

def addCylinder (params : List (String × ℚ)) (name : String)
    (position : Vec3) : SceneObject :=
  { type := "Cylinder", name := name, position := position,
    rotation := ⟨0, 0, 0, "XYZ"⟩, scale := ⟨1, 1, 1⟩,
    params := [("radiusTop", lookupParam params "radiusTop" 1),
      ("radiusBottom", lookupParam params "radiusBottom" 1),
      ("height", lookupParam params "height" 2),
      ("radialSegments", lookupParam params "radialSegments" 16)] }

/-- The per-object tail of the import loop: `rotation.fromArray` and
`scale.fromArray` applied to the freshly added mesh (both fields are present
in every exported document). -/
def applyRotScale (m : SceneObject) (o : ObjData) : SceneObject :=
  { m with rotation := o.rotation, scale := o.scale }

/-- The `switch (objData.type)` of the import loop: only `Box`, `Sphere` and
`Cylinder` are handled; any other type falls through and adds nothing. -/
def rebuildObject (o : ObjData) : Option SceneObject :=
  if o.type = "Box" then
    some (applyRotScale (addBox o.params o.name o.position) o)
  else if o.type = "Sphere" then
    some (applyRotScale (addSphere o.params o.name o.position) o)
  else if o.type = "Cylinder" then
    some (applyRotScale (addCylinder o.params o.name o.position) o)
  else none

/-- `SceneManager.importScene`: a malformed document is rejected (`false`)
before the destructive clear, leaving the scene untouched; otherwise every
current object is discarded and disposed, and the scene is rebuilt from the
document alone, skipping unknown types object by object. -/
def importScene (doc : Option (List ObjData)) (scene : List SceneObject) :
    Bool × List SceneObject :=
  match doc with
  | none => (false, scene)
  | some objs => (true, objs.filterMap rebuildObject)

theorem rebuildObject_none_of_unknown (o : ObjData)
    (hb : o.type ≠ "Box") (hs : o.type ≠ "Sphere")
    (hc : o.type ≠ "Cylinder") : rebuildObject o = none := by
  simp [rebuildObject, hb, hs, hc]

/-- C7: a document with missing/non-array `objects` is rejected with `false`
and the scene left untouched (the check precedes the destructive clear); a
well-formed document's result discards the prior scene entirely (the result
does not depend on it) while reporting `true`; and unknown object types are
skipped individually without affecting the rest of the import. -/
theorem importScene_error_handling :
    (∀ scene : List SceneObject, importScene none scene = (false, scene)) ∧
    (∀ (objs : List ObjData) (scene1 scene2 : List SceneObject),
      importScene (some objs) scene1 = importScene (some objs) scene2 ∧
      (importScene (some objs) scene1).1 = true) ∧
    (∀ (objs : List ObjData) (scene : List SceneObject),
      importScene (some objs) scene =
        importScene (some (objs.filter (fun o =>
          o.type == "Box" || o.type == "Sphere" || o.type == "Cylinder")))
          scene) := by
  refine ⟨fun scene => rfl, fun objs scene1 scene2 => ⟨rfl, rfl⟩, ?_⟩
  intro objs scene
  simp only [importScene, Prod.mk.injEq, true_and]
  induction objs with
  | nil => rfl
  | cons o rest ih =>
    by_cases hb : o.type = "Box"
    · simp [List.filterMap_cons, List.filter_cons, hb, rebuildObject, ih]
    · by_cases hs : o.type = "Sphere"
      · simp [List.filterMap_cons, List.filter_cons, hb, hs, rebuildObject, ih]
      · by_cases hc : o.type = "Cylinder"
        · simp [List.filterMap_cons, List.filter_cons, hb, hs, hc,
            rebuildObject, ih]
        · have hr := rebuildObject_none_of_unknown o hb hs hc
          simp [List.filterMap_cons, List.filter_cons, hb, hs, hc, hr, ih]

/-- The type/position/rotation/scale projection the round-trip claim compares
(within tolerance 1e-4; the embedding reproduces them exactly). -/
def transformProj (m : SceneObject) : String × Vec3 × EulerRot × Vec3 :=
  (m.type, m.position, m.rotation, m.scale)

theorem rebuild_export_of_known (m : SceneObject)
    (h : m.type = "Box" ∨ m.type = "Sphere" ∨ m.type = "Cylinder") :
    ∃ m2, rebuildObject
        { type := m.type, name := m.name, position := m.position,
          rotation := m.rotation, scale := m.scale, params := m.params } =
      some m2 ∧ transformProj m2 = transformProj m := by
  rcases h with h | h | h
  · have hrb : rebuildObject
        { type := m.type, name := m.name, position := m.position,
          rotation := m.rotation, scale := m.scale, params := m.params } =
        some (applyRotScale (addBox m.params m.name m.position)
          { type := m.type, name := m.name, position := m.position,
            rotation := m.rotation, scale := m.scale, params := m.params }) := by
      simp [rebuildObject, h]
    exact ⟨_, hrb, by simp [transformProj, applyRotScale, addBox, h]⟩
  · have hb : m.type ≠ "Box" := by rw [h]; decide
    have hrb : rebuildObject
        { type := m.type, name := m.name, position := m.position,
          rotation := m.rotation, scale := m.scale, params := m.params } =
        some (applyRotScale (addSphere m.params m.name m.position)
          { type := m.type, name := m.name, position := m.position,
            rotation := m.rotation, scale := m.scale, params := m.params }) := by
      simp [rebuildObject, h, hb]
    exact ⟨_, hrb, by simp [transformProj, applyRotScale, addSphere, h]⟩
  · have hb : m.type ≠ "Box" := by rw [h]; decide
    have hs : m.type ≠ "Sphere" := by rw [h]; decide
    have hrb : rebuildObject
        { type := m.type, name := m.name, position := m.position,
          rotation := m.rotation, scale := m.scale, params := m.params } =
        some (applyRotScale (addCylinder m.params m.name m.position)
          { type := m.type, name := m.name, position := m.position,
            rotation := m.rotation, scale := m.scale, params := m.params }) := by
      simp [rebuildObject, h, hb, hs]
    exact ⟨_, hrb, by simp [transformProj, applyRotScale, addCylinder, h]⟩

/-- C6 (amended): for every scene whose objects all have type `Box`, `Sphere`
or `Cylinder`, `importScene (exportScene scene)` succeeds and reproduces the
same number of objects with identical type, position, rotation and scale
(exact equality, hence within the claimed 1e-4 tolerance).  Objects of type
`Extruded` — and the sketch-created `Rectangle`/`Circle` types — are dropped
by the import switch, refuting the claim for those types
(`importExport_drops_extruded`). -/
theorem importExport_roundtrip_basic (scene : List SceneObject)
    (htypes : ∀ m ∈ scene,
      m.type = "Box" ∨ m.type = "Sphere" ∨ m.type = "Cylinder") :
    (importScene (some (exportScene scene)) scene).1 = true ∧
    (importScene (some (exportScene scene)) scene).2.length = scene.length ∧
    (importScene (some (exportScene scene)) scene).2.map transformProj =
      scene.map transformProj := by
  refine ⟨rfl, ?_⟩
  simp only [importScene, exportScene]
  induction scene with
  | nil => simp
  | cons m rest ih =>
    obtain ⟨m2, hm2, hproj⟩ := rebuild_export_of_known m
      (htypes m (List.mem_cons_self _ _))
    have ihr := ih (fun u hu => htypes u (by simp [hu]))
    simp only [List.map_cons, List.filterMap_cons, hm2]
    constructor
    · simp only [List.length_cons, ihr.1]
    · simp only [List.map_cons, hproj, ihr.2]

def boxScene : List SceneObject :=
  [{ type := "Box", name := "B", position := ⟨1, 2, 3⟩,
     rotation := ⟨0, 1/2, 0, "XYZ"⟩, scale := ⟨1, 1, 1⟩,
     params := [("width", 2), ("height", 1), ("depth", 3)] }]

/-- Witness for the amended C6 on a one-box scene. -/
theorem importExport_roundtrip_basic_witness :
    (importScene (some (exportScene boxScene)) boxScene).1 = true ∧
    (importScene (some (exportScene boxScene)) boxScene).2.length =
      boxScene.length ∧
    (importScene (some (exportScene boxScene)) boxScene).2.map transformProj =
      boxScene.map transformProj :=
  importExport_roundtrip_basic boxScene (by
    intro m hm
    rcases List.mem_singleton.mp hm with rfl
    left
    rfl)

def extrudedScene : List SceneObject :=
  [{ type := "Extruded", name := "E", position := ⟨0, 0, 0⟩,
     rotation := ⟨0, 0, 0, "XYZ"⟩, scale := ⟨1, 1, 1⟩, params := [] }]

/-- C6 counterexample: a scene holding one `Extruded` object round-trips to an
empty scene — the import switch has no `Extruded` case — so the object count
is not reproduced. -/
theorem importExport_drops_extruded :
    extrudedScene.length = 1 ∧
    (importScene (some (exportScene extrudedScene)) extrudedScene).2.length
      = 0 := by
  refine ⟨rfl, ?_⟩
  simp [importScene, exportScene, extrudedScene, List.filterMap_cons,
    rebuildObject]

/-!
Claim C8: sketch rectangle creation (`SketchMode`, src/core/SketchMode.js).
`getIntersectionPoint` snaps both ground-plane coordinates with
`Math.round(value / gridSize) * gridSize` (gridSize 0.5); `createRectangle`
discards drags whose width or depth is below 0.1 and otherwise extrudes the
`[0,width] × [0,depth]` shape, rotated onto the XZ plane and positioned at the
drag's min corner.
-/

/-- JS `Math.round`: half-up rounding, `round(x) = ⌊x + 1/2⌋`. -/
def jsRound (q : ℚ) : ℤ := ⌊q + 1 / 2⌋

/-- `Math.round(value / gridSize) * gridSize` from `getIntersectionPoint`. -/
def snapToGrid (v grid : ℚ) : ℚ := (jsRound (v / grid) : ℚ) * grid

/-- A point of the ground plane (`y = 0`). -/
structure P2 where
  x : ℚ
  z : ℚ
deriving DecidableEq, Repr

/-- Both coordinates grid-snapped, default gridSize 0.5. -/
def snapPoint (p : P2) (grid : ℚ) : P2 :=
  ⟨snapToGrid p.x grid, snapToGrid p.z grid⟩

/-- The registered extruded object: mesh position (min corner) and the shape's
width/depth. -/
structure RectObject where
  cornerX : ℚ
  cornerZ : ℚ
  width : ℚ
  depth : ℚ
deriving DecidableEq, Repr

/-- `SketchMode.createRectangle` (lines 162-180) on the two snapped drag
endpoints. -/
def createRectangle (startP endP : P2) : Option RectObject :=
  if |endP.x - startP.x| < 1/10 ∨ |endP.z - startP.z| < 1/10 then none
  else some ⟨min startP.x endP.x, min startP.z endP.z,
    |endP.x - startP.x|, |endP.z - startP.z|⟩

/-- Pointer-up while dragging: the new object, when one is built, is
registered through `addObject` (one new tracked object). -/
def sketchPointerUp (scene : List RectObject) (startP endP : P2) :
    List RectObject :=
  match createRectangle startP endP with
  | none => scene
  | some r => scene ++ [r]

/-- The four ground-plane corners of the built mesh: shape corner `(x, y)`
maps under `rotateX(-π/2)` to `(x, 0, -y)`, then the mesh is positioned at
the rectangle's min corner, giving world `(cornerX + x, cornerZ - y)`. -/
def rectWorldCorners (r : RectObject) : List P2 :=
  [⟨r.cornerX, r.cornerZ⟩, ⟨r.cornerX + r.width, r.cornerZ⟩,
   ⟨r.cornerX + r.width, r.cornerZ - r.depth⟩,
   ⟨r.cornerX, r.cornerZ - r.depth⟩]

/-- Axis-aligned extents (footprint) of the built mesh's ground corners. -/
def footprint (r : RectObject) : ℚ × ℚ :=
  (((rectWorldCorners r).map P2.x).foldl max r.cornerX -
     ((rectWorldCorners r).map P2.x).foldl min r.cornerX,
   ((rectWorldCorners r).map P2.z).foldl max r.cornerZ -
     ((rectWorldCorners r).map P2.z).foldl min r.cornerZ)

theorem sketchPointerUp_eq (scene : List RectObject) (s e : P2) :
    sketchPointerUp scene s e =
      match createRectangle s e with
      | none => scene
      | some r => scene ++ [r] := rfl

theorem footprint_eq (cx cz w d : ℚ) (hw : 0 ≤ w) (hd : 0 ≤ d) :
    footprint ⟨cx, cz, w, d⟩ = (w, d) := by
  unfold footprint rectWorldCorners
  simp only [List.map_cons, List.map_nil, List.foldl_cons, List.foldl_nil]
  rw [Prod.mk.injEq]
  constructor
  · simp only [max_def, min_def]
    split_ifs <;> linarith
  · simp only [max_def, min_def]
    split_ifs <;> linarith

/-- C8: both drag endpoints are grid-snapped with
`round(value / 0.5) * 0.5`; on pointer-up a rectangle whose snapped width or
depth is below 0.1 silently creates nothing, and otherwise exactly one object
is registered whose footprint is exactly `|endX - startX| × |endZ - startZ|`
of the snapped endpoints. -/
theorem sketch_rectangle_spec (rawStart rawEnd : P2)
    (scene : List RectObject) :
    ((|(snapPoint rawEnd (1/2)).x - (snapPoint rawStart (1/2)).x| < 1/10 ∨
      |(snapPoint rawEnd (1/2)).z - (snapPoint rawStart (1/2)).z| < 1/10) →
      createRectangle (snapPoint rawStart (1/2)) (snapPoint rawEnd (1/2)) =
        none ∧
      sketchPointerUp scene (snapPoint rawStart (1/2))
        (snapPoint rawEnd (1/2)) = scene) ∧
    (¬(|(snapPoint rawEnd (1/2)).x - (snapPoint rawStart (1/2)).x| < 1/10 ∨
      |(snapPoint rawEnd (1/2)).z - (snapPoint rawStart (1/2)).z| < 1/10) →
      ∃ r, createRectangle (snapPoint rawStart (1/2))
          (snapPoint rawEnd (1/2)) = some r ∧
        sketchPointerUp scene (snapPoint rawStart (1/2))
          (snapPoint rawEnd (1/2)) = scene ++ [r] ∧
        footprint r =
          (|(snapPoint rawEnd (1/2)).x - (snapPoint rawStart (1/2)).x|,
           |(snapPoint rawEnd (1/2)).z - (snapPoint rawStart (1/2)).z|)) := by
  generalize snapPoint rawStart (1/2) = s
  generalize snapPoint rawEnd (1/2) = e
  constructor
  · intro h
    have hc : createRectangle s e = none := by
      rw [createRectangle, if_pos h]
    exact ⟨hc, by rw [sketchPointerUp_eq, hc]⟩
  · intro h
    have hc : createRectangle s e =
        some ⟨min s.x e.x, min s.z e.z, |e.x - s.x|, |e.z - s.z|⟩ := by
      rw [createRectangle, if_neg h]
    refine ⟨_, hc, by rw [sketchPointerUp_eq, hc], ?_⟩
    exact footprint_eq _ _ _ _ (abs_nonneg _) (abs_nonneg _)

/-- Witness for C8: the claim's two examples.  A drag from `(0,0)` to `(2,3)`
creates exactly one object with footprint exactly `2 × 3`; a drag from
`(0,0)` to `(0.05, 0.05)` snaps to a zero-size rectangle and creates
nothing. -/
theorem sketch_rectangle_spec_witness :
    (∃ r, createRectangle (snapPoint ⟨0, 0⟩ (1/2)) (snapPoint ⟨2, 3⟩ (1/2)) =
        some r ∧
      sketchPointerUp [] (snapPoint ⟨0, 0⟩ (1/2)) (snapPoint ⟨2, 3⟩ (1/2)) =
        [] ++ [r] ∧
      footprint r =
        (|(snapPoint ⟨2, 3⟩ (1/2)).x - (snapPoint ⟨0, 0⟩ (1/2)).x|,
         |(snapPoint ⟨2, 3⟩ (1/2)).z - (snapPoint ⟨0, 0⟩ (1/2)).z|)) ∧
    createRectangle (snapPoint ⟨0, 0⟩ (1/2)) (snapPoint ⟨1/20, 1/20⟩ (1/2)) =
      none ∧
    sketchPointerUp [] (snapPoint ⟨0, 0⟩ (1/2))
      (snapPoint ⟨1/20, 1/20⟩ (1/2)) = [] := by
  have hsnap0 : snapPoint ⟨0, 0⟩ (1/2) = ⟨0, 0⟩ := by
    simp [snapPoint, snapToGrid, jsRound]
    norm_num
  have hsnap23 : snapPoint ⟨2, 3⟩ (1/2) = ⟨2, 3⟩ := by
    simp only [snapPoint, snapToGrid, jsRound, P2.mk.injEq]
    norm_num
  have hsnap005 : snapPoint ⟨1/20, 1/20⟩ (1/2) = ⟨0, 0⟩ := by
    simp only [snapPoint, snapToGrid, jsRound, P2.mk.injEq]
    norm_num
  constructor
  · refine (sketch_rectangle_spec ⟨0, 0⟩ ⟨2, 3⟩ []).2 ?_
    rw [hsnap0, hsnap23]
    norm_num
  · have h := (sketch_rectangle_spec ⟨0, 0⟩ ⟨1/20, 1/20⟩ []).1 ?_
    · exact h
    · rw [hsnap0, hsnap005]
      norm_num

/-!
Claims C5/C9: the selection lifecycle.  `SelectionManager`
(src/three/selection.js) never assigns `this.selection` in its constructor,
so the first `deselect()` — called directly, or as the first step of every
`selectObject` — destructures `undefined` and throws a TypeError before any
state change.  `this.selection` is therefore modelled as `Option SelRecord`
(`none` = still undefined); throwing operations return `Except Unit`.
JS class semantics are respected: of the duplicate method definitions, the
later one wins (`highlightObject` at line 339, `highlightFace` at line 297).
-/

/-- A material reference: an object's own material or a highlight clone. -/
inductive MatRef
  | base (objId : Nat)
  | highlightClone
deriving DecidableEq, Repr

/-- Render-relevant state of one object: its current material and whether an
edge/face overlay child is attached (`userData.edgeHighlight` /
`userData.faceHighlight`). -/
structure ObjState where
  material : MatRef
  edgeHighlight : Bool
  faceHighlight : Bool
deriving DecidableEq, Repr

/-- The `this.selection` record (the `originalFaceMaterials` map is only used
by the overridden earlier `highlightFace` and is omitted). -/
structure SelRecord where
  obj : Option Nat
  faceIndex : Option Nat
  edge : Option (Nat × Nat)
  originalMaterial : Option MatRef
deriving DecidableEq, Repr

/-- SelectionManager state: the possibly-undefined `selection`, the
manager-level `originalMaterial` the effective `highlightObject` writes, and
every object's render state. -/
structure SMState where
  selection : Option SelRecord
  originalMaterial : Option MatRef
  objects : List (Nat × ObjState)
deriving DecidableEq, Repr

def getObj (s : SMState) (i : Nat) : ObjState :=
  match s.objects.lookup i with
  | some o => o
  | none => ⟨.base i, false, false⟩

def setObj (s : SMState) (i : Nat) (o : ObjState) : SMState :=
  { s with objects := (i, o) :: s.objects.eraseP (fun p => p.1 == i) }

/-- The empty record `deselect` leaves behind. -/
def nullSelection : SelRecord := ⟨none, none, none, none⟩

/-- `SelectionManager.deselect` (lines 363-401): destructuring
`this.selection` throws when the field was never assigned; with a record
whose `object` is null it returns at once; otherwise it restores the stored
original material, removes both overlay children, and resets `selection` to
the null record. -/
def deselect (s : SMState) : Except Unit SMState :=
  match s.selection with
  | none => .error ()
  | some sel =>
    match sel.obj with
    | none => .ok s
    | some oid =>
      let s1 :=
        match sel.originalMaterial with
        | some mat => setObj s oid { getObj s oid with material := mat }
        | none => s
      let s2 := setObj s1 oid
        { getObj s1 oid with edgeHighlight := false, faceHighlight := false }
      .ok { s2 with selection := some nullSelection }

/-- The effective `highlightObject` (line 339, the later definition): store
the manager-level `originalMaterial` only if not already stored, then swap in
a highlight clone. -/
def highlightObject (s : SMState) : SMState :=
  match s.selection with
  | none => s
  | some sel =>
    match sel.obj with
    | none => s
    | some oid =>
      let s1 :=
        if s.originalMaterial = none
        then { s with originalMaterial := some (getObj s oid).material }
        else s
      setObj s1 oid { getObj s1 oid with material := .highlightClone }

/-- `highlightEdge` (line 268): attach a line overlay child to the object. -/
def highlightEdge (s : SMState) (edge : Option (Nat × Nat)) : SMState :=
  match s.selection with
  | none => s
  | some sel =>
    match sel.obj, edge with
    | some oid, some _ => setObj s oid { getObj s oid with edgeHighlight := true }
    | _, _ => s

/-- The effective `highlightFace` (line 297): attach a face overlay child. -/
def highlightFace (s : SMState) (faceIndex : Option Nat) : SMState :=
  match s.selection with
  | none => s
  | some sel =>
    match sel.obj, faceIndex with
    | some oid, some _ => setObj s oid { getObj s oid with faceHighlight := true }
    | _, _ => s

/-- `SelectionManager.selectObject` (lines 197-227): a null object delegates
to `deselect`; otherwise `deselect()` runs first (throwing on a fresh
manager), then the new selection record is stored — remembering the object's
current material — and the matching highlight is applied. -/
def selectObject (s : SMState) (object : Option Nat)
    (faceIndex : Option Nat) (edge : Option (Nat × Nat)) :
    Except Unit SMState :=
  match object with
  | none => deselect s
  | some oid =>
    match deselect s with
    | .error e => .error e
    | .ok s1 =>
      let s2 := { s1 with
        selection :=
          some ⟨some oid, faceIndex, edge, some (getObj s1 oid).material⟩ }
      .ok (if edge.isSome then highlightEdge s2 edge
        else if faceIndex.isSome then highlightFace s2 faceIndex
        else highlightObject s2)

/-- A fresh `new SelectionManager(...)`: `this.selection` never assigned. -/
def initialSelectionState (objs : List (Nat × ObjState)) : SMState :=
  ⟨none, none, objs⟩

/-- `SceneManager`'s own selection bookkeeping (`this.selected`). -/
structure SceneMgrState where
  selectedObject : Option Nat
  selectedOriginalMaterial : Option MatRef
  materials : List (Nat × MatRef)
  transformAttached : Bool
deriving DecidableEq, Repr

/-- `SceneManager.deselectObject` (lines 222-238): `if (!this.selected.object)
return;` — a no-op whenever nothing is selected. -/
def deselectObject (st : SceneMgrState) : SceneMgrState :=
  match st.selectedObject with
  | none => st
  | some oid =>
    let st1 :=
      match st.selectedOriginalMaterial with
      | some mat => { st with materials :=
          (oid, mat) :: st.materials.eraseP (fun p => p.1 == oid) }
      | none => st
    { st1 with
      selectedObject := none
      selectedOriginalMaterial := none
      transformAttached := false }

/-- A fresh `SceneManager`: `this.selected = { type: null, id: null }`, so
`this.selected.object` is undefined. -/
def initialSceneMgr (mats : List (Nat × MatRef)) : SceneMgrState :=
  ⟨none, none, mats, false⟩

/-- C9 evaluation: on a fresh `SelectionManager`, `deselect()` throws a
TypeError (destructuring undefined `this.selection`) instead of being the
claimed no-op; once a selection record exists and holds no object, `deselect`
is the claimed no-op, and `SceneManager.deselectObject` is a no-op on its
initial state. -/
theorem deselect_on_empty_behavior (objs : List (Nat × ObjState))
    (om : Option MatRef) (mats : List (Nat × MatRef)) :
    deselect (initialSelectionState objs) = .error () ∧
    deselect ⟨some nullSelection, om, objs⟩ = .ok ⟨some nullSelection, om, objs⟩ ∧
    deselectObject (initialSceneMgr mats) = initialSceneMgr mats :=
  ⟨rfl, rfl, rfl⟩

/-- C5 evaluation: on a fresh `SelectionManager` the very first
`selectObject(A)` throws (its internal `deselect()` destructures the
never-assigned `this.selection`) before any material swap or overlay is
created, so the selection lifecycle the claim describes never takes place. -/
theorem selectObject_initial_throws (objs : List (Nat × ObjState)) (oid : Nat)
    (faceIndex : Option Nat) (edge : Option (Nat × Nat)) :
    selectObject (initialSelectionState objs) (some oid) faceIndex edge =
      .error () := rfl

/-- Witness: a concrete first `selectObject` on a one-object scene throws. -/
theorem selectObject_initial_throws_witness :
    selectObject (initialSelectionState [(0, ⟨.base 0, false, false⟩)])
      (some 0) none none = .error () :=
  selectObject_initial_throws [(0, ⟨.base 0, false, false⟩)] 0 none none

/-- Witness: C9's three evaluations on concrete states. -/
theorem deselect_on_empty_behavior_witness :
    deselect (initialSelectionState [(0, ⟨.base 0, false, false⟩)]) =
      .error () ∧
    deselect ⟨some nullSelection, none, [(0, ⟨.base 0, false, false⟩)]⟩ =
      .ok ⟨some nullSelection, none, [(0, ⟨.base 0, false, false⟩)]⟩ ∧
    deselectObject (initialSceneMgr [(0, .base 0)]) =
      initialSceneMgr [(0, .base 0)] :=
  deselect_on_empty_behavior [(0, ⟨.base 0, false, false⟩)] none [(0, .base 0)]

end ThreeApp
